import Mathlib

/-!
Verification of the hackvm VM toolchain (Rust), as a shallow embedding.

The embedding follows the Rust sources:
  * `src/hackvm/src/vmparser.rs`   (the `Token` type)
  * `src/hackvm/src/vmcommand.rs`  (the program model and the loader
    `VMProgram::with_internals`, push/pop fusion, label tables)
  * `src/hackvm/src/vmemulator.rs` (the emulator: RAM, global stack, the
    call stack of frames, the step function, `run`)
  * `src/fun/src/compiler.rs` and `src/fun/src/ast.rs` (the L-to-VM
    compiler slice relevant to `while` lowering)

Modelling conventions:
  * Rust `Result::Err` is `Outcome.error`, a Rust `panic!` (including an
    out-of-bounds slice index, a failed `expect`/`unwrap`, `todo!`, and
    integer division by zero) is `Outcome.panic`.  Both are translated at
    the exact program point where the Rust aborts.
  * RAM is a total function `Nat → Int`; every access the Rust code makes
    through a computed index goes through a bounds check against
    `RAM_SIZE`, exactly where the Rust slice operation would panic.
  * `i32` arithmetic that can wrap in release builds is modelled with
    `wrap32`; `i32 as usize` is `asUsize` (two's-complement conversion).
    Rust error-message formatting of `{:?}` payloads is simplified to
    fixed message text.
  * The `call_stack` list keeps the TOP frame at the HEAD (the Rust
    `Vec` keeps it at the end).
-/

namespace HackVM

/-- Result of running an operation of the Rust code: normal result,
`Result::Err` value, or process abort via `panic!`. -/
inductive Outcome (α : Type) where
  | ok : α → Outcome α
  | error : String → Outcome α
  | panic : String → Outcome α
deriving Repr, DecidableEq

instance : Monad Outcome where
  pure := Outcome.ok
  bind x f := match x with
    | .ok a => f a
    | .error m => .error m
    | .panic m => .panic m

/-- Models Rust `Result::map_err`: transforms the message of an
`error` outcome and leaves `ok` and `panic` alone. -/
def Outcome.mapError {α : Type} (x : Outcome α) (f : String → String) : Outcome α :=
  match x with
  | .ok a => .ok a
  | .error m => .error (f m)
  | .panic m => .panic m

@[simp] theorem Outcome.bind_ok {α β : Type} (a : α) (f : α → Outcome β) :
    (Outcome.ok a >>= f) = f a := rfl

@[simp] theorem Outcome.bind_error {α β : Type} (m : String) (f : α → Outcome β) :
    (Outcome.error m >>= f) = Outcome.error m := rfl

@[simp] theorem Outcome.bind_panic {α β : Type} (m : String) (f : α → Outcome β) :
    (Outcome.panic m >>= f) = Outcome.panic m := rfl

@[simp] theorem Outcome.mapError_ok {α : Type} (a : α) (f : String → String) :
    (Outcome.ok a).mapError f = Outcome.ok a := rfl

@[simp] theorem Outcome.mapError_error {α : Type} (m : String) (f : String → String) :
    (Outcome.error m : Outcome α).mapError f = Outcome.error (f m) := rfl

@[simp] theorem Outcome.mapError_panic {α : Type} (m : String) (f : String → String) :
    (Outcome.panic m : Outcome α).mapError f = Outcome.panic m := rfl

@[simp] theorem Outcome.bind_ite {α β : Type} (c : Prop) [Decidable c] (x y : Outcome α)
    (k : α → Outcome β) :
    ((if c then x else y) >>= k) = if c then x >>= k else y >>= k := by
  split_ifs <;> rfl

@[simp] theorem Outcome.mapError_ite {α : Type} (c : Prop) [Decidable c] (x y : Outcome α)
    (f : String → String) :
    (Outcome.mapError (if c then x else y) f) =
      if c then Outcome.mapError x f else Outcome.mapError y f := by
  split_ifs <;> rfl

/-! ## Data model (`vmcommand.rs`, `vmparser.rs`) -/

/-- `Segment` from `vmcommand.rs`. -/
inductive Segment where
  | Constant
  | Argument
  | Local
  | Static
  | This
  | That
  | Pointer
  | Temp
deriving Repr, DecidableEq

/-- `InCodeFuncRef` from `vmcommand.rs`. -/
structure InCodeFuncRef where
  file_index : Nat
  function_index : Nat
deriving Repr, DecidableEq

/-- `FunctionRef` from `vmcommand.rs`. -/
inductive FunctionRef where
  | Internal (id : Nat)
  | InCode (r : InCodeFuncRef)
deriving Repr, DecidableEq

/-- `FunctionRef::new` from `vmcommand.rs`. -/
def FunctionRef.new (file_index function_index : Nat) : FunctionRef :=
  FunctionRef.InCode ⟨file_index, function_index⟩

/-- `Operation` from `vmcommand.rs`. -/
inductive Operation where
  | Neg
  | Not
  | Add
  | Sub
  | And
  | Or
  | Eq
  | Lt
  | Gt
deriving Repr, DecidableEq

/-- `Token` from `vmparser.rs` (indices are `u16`, modelled as `Nat`). -/
inductive Token where
  | None
  | Neg
  | Not
  | Add
  | Sub
  | And
  | Or
  | Eq
  | Lt
  | Gt
  | Push (segment : Segment) (index : Nat)
  | Pop (segment : Segment) (index : Nat)
  | Label (label : String)
  | If (label : String)
  | Goto (label : String)
  | Function (name : String) (num_locals : Nat)
  | Return
  | Call (name : String) (num_args : Nat)
deriving Repr, DecidableEq

/-- `Command` from `vmcommand.rs`: label references are resolved command
indices, call/function references are `FunctionRef`s, and `CopySeg` is the
fused push/pop command. -/
inductive Command where
  | Arithmetic (op : Operation)
  | Push (segment : Segment) (index : Nat)
  | Pop (segment : Segment) (index : Nat)
  | If (index : Nat)
  | Goto (index : Nat)
  | Function (f : FunctionRef) (num_locals : Nat)
  | Return
  | Call (f : FunctionRef) (num_args : Nat)
  | CopySeg (from_segment : Segment) (from_index : Nat)
            (to_segment : Segment) (to_index : Nat)
deriving Repr, DecidableEq

/-- `VMFunction` from `vmcommand.rs`. -/
structure VMFunction where
  id : FunctionRef
  name : String
  num_locals : Nat
  commands : List Command
deriving Repr, DecidableEq

/-- `VMFile` from `vmcommand.rs`. -/
structure VMFile where
  name : String
  functions : List VMFunction
  num_statics : Nat
  static_offset : Nat
deriving Repr, DecidableEq

/-- The `bimap::BiMap<String, FunctionRef>` function table, modelled as an
association list; entries are prepended, so lookup finds the newest
binding (the code only inserts keys that are not present). -/
abbrev FunctionTable : Type := List (String × FunctionRef)

/-- `bimap::BiMap::get_by_left`. -/
def FunctionTable.get_by_left (t : FunctionTable) (name : String) : Option FunctionRef :=
  match t with
  | [] => none
  | (n, r) :: rest => if n = name then some r else FunctionTable.get_by_left rest name

/-- `VMProgram` from `vmcommand.rs`. -/
structure VMProgram where
  files : List VMFile
  function_table : FunctionTable
  warnings : List String

/-- `VMProgram::empty`. -/
def VMProgram.empty : VMProgram := ⟨[], [], []⟩

/-- `VMProgram::get_function_ref`: name lookup returning only in-code
references. -/
def VMProgram.get_function_ref (p : VMProgram) (name : String) : Option InCodeFuncRef :=
  match p.function_table.get_by_left name with
  | some (FunctionRef.InCode r) => some r
  | _ => none

/-- `VMProgram::get_vmfunction`, with the `Vec` indexing made explicit:
`none` corresponds to the Rust index-out-of-bounds panic. -/
def VMProgram.get_vmfunction? (p : VMProgram) (f : InCodeFuncRef) : Option VMFunction :=
  match p.files.get? f.file_index with
  | none => none
  | some file => file.functions.get? f.function_index

/-- `VMProgram::get_file`. -/
def VMProgram.get_file? (p : VMProgram) (f : InCodeFuncRef) : Option VMFile :=
  p.files.get? f.file_index

/-! ## Emulator state (`vmemulator.rs`) -/

def RAM_SIZE : Nat := 16384 + 8192 + 1

def SP : Nat := 0
def LCL : Nat := 1
def ARG : Nat := 2
def THIS : Nat := 3
def THAT : Nat := 4

/-- Two's-complement wrap of an integer into the `i32` range, modelling
release-mode `i32` arithmetic. -/
def wrap32 (n : Int) : Int := (n + 2 ^ 31) % 2 ^ 32 - 2 ^ 31

/-- Rust `i32 as usize` (sign extension to 64 bits reinterpreted
unsigned); negative values become huge addresses that fail every
subsequent slice bounds check. -/
def asUsize (v : Int) : Nat := ((2 ^ 64 + v) % 2 ^ 64).toNat

/-- Pointwise RAM update. -/
def setRam (ram : Nat → Int) (a : Nat) (v : Int) : Nat → Int :=
  fun i => if i = a then v else ram i

@[simp] theorem setRam_same (ram : Nat → Int) (a : Nat) (v : Int) :
    setRam ram a v a = v := by simp [setRam]

@[simp] theorem setRam_other (ram : Nat → Int) (a b : Nat) (v : Int) (h : b ≠ a) :
    setRam ram a v b = ram b := by simp [setRam, h]

/-- `VMStackFrame` from `vmemulator.rs` (the unused `local_segment`
vector is omitted: the Rust code never reads or writes it). -/
structure VMStackFrame where
  stack_size : Nat
  function : InCodeFuncRef
  index : Nat
  num_args : Nat
deriving Repr, DecidableEq

/-- `VMStackFrame::new`. -/
def VMStackFrame.new (function : InCodeFuncRef) (num_args : Nat) : VMStackFrame :=
  ⟨0, function, 0, num_args⟩

/-- `VMEmulator` (the profiler is omitted: it does not affect
`step`/`run` semantics).  The head of `call_stack` is the top frame. -/
structure VMEmulator where
  program : VMProgram
  ram : Nat → Int
  call_stack : List VMStackFrame
  step_counter : Nat

/-- `VMEmulator::new`. -/
def VMEmulator.new (program : VMProgram) : VMEmulator :=
  ⟨program, fun _ => 0, [], 0⟩

namespace VMEmulator

/-- A single `self.ram[addr] = value` assignment. -/
def set_ram_reg (vm : VMEmulator) (addr : Nat) (value : Int) : VMEmulator :=
  { vm with ram := setRam vm.ram addr value }

/-- `push_global_stack`: increments SP then writes through
`get_global_stack_mut().last_mut()`; the slice bounds check panics
exactly when Rust would, and an empty slice silently drops the value. -/
def push_global_stack (vm : VMEmulator) (value : Int) : Outcome VMEmulator :=
  let sp1 := wrap32 (vm.ram SP + 1)
  let vm1 : VMEmulator := { vm with ram := setRam vm.ram SP sp1 }
  let e := asUsize sp1
  if 256 ≤ e ∧ e ≤ RAM_SIZE then
    if 256 < e then .ok { vm1 with ram := setRam vm1.ram (e - 1) value }
    else .ok vm1
  else .panic "slice index out of range"

/-- `pop_global_stack`. -/
def pop_global_stack (vm : VMEmulator) : Outcome (Int × VMEmulator) :=
  if vm.ram SP ≤ 256 then .error "Global stack is empty"
  else
    let sp1 := wrap32 (vm.ram SP - 1)
    let vm1 : VMEmulator := { vm with ram := setRam vm.ram SP sp1 }
    let a := asUsize sp1
    if a < RAM_SIZE then .ok (vm1.ram a, vm1)
    else .panic "index out of bounds"

/-- `pop_stack`: refuses to pop unless the current frame owns a value. -/
def pop_stack (vm : VMEmulator) : Outcome (Int × VMEmulator) :=
  match vm.call_stack with
  | [] => .panic "call stack is empty"
  | f :: rest =>
    if f.stack_size > 0 then
      pop_global_stack { vm with call_stack := { f with stack_size := f.stack_size - 1 } :: rest }
    else .error "local stack is empty"

/-- `push_stack`. -/
def push_stack (vm : VMEmulator) (value : Int) : Outcome VMEmulator :=
  match vm.call_stack with
  | [] => .panic "call stack is empty"
  | f :: rest =>
    push_global_stack { vm with call_stack := { f with stack_size := f.stack_size + 1 } :: rest } value

/-- `get_segment_bounds`: start and end RAM addresses of a segment. -/
def get_segment_bounds (vm : VMEmulator) (segment : Segment) : Outcome (Nat × Nat) :=
  match segment with
  | .Static =>
    match vm.call_stack with
    | [] => .panic "call stack is empty"
    | f :: _ =>
      match vm.program.get_file? f.function with
      | none => .panic "index out of bounds"
      | some vmfile =>
        .ok (16 + vmfile.static_offset, 16 + vmfile.static_offset + vmfile.num_statics)
  | .Pointer => .ok (THIS, THAT + 1)
  | .Temp => .ok (5, 5 + 8)
  | .This => .ok (asUsize (vm.ram THIS), RAM_SIZE)
  | .That => .ok (asUsize (vm.ram THAT), RAM_SIZE)
  | .Local =>
    match vm.call_stack with
    | [] => .panic "call stack is empty"
    | f :: _ =>
      match vm.program.get_vmfunction? f.function with
      | none => .panic "index out of bounds"
      | some fn =>
        .ok (asUsize (vm.ram LCL), asUsize (vm.ram LCL) + fn.num_locals)
  | .Argument =>
    match vm.call_stack with
    | [] => .panic "call stack is empty"
    | f :: _ =>
      if vm.ram ARG < 0 then .panic "called Option::unwrap on a None value"
      else .ok ((vm.ram ARG).toNat, (vm.ram ARG).toNat + f.num_args)
  | .Constant => .panic "constant segment does not actually exist"

/-- Reading `get_segment(segment)[index]`: the slice construction and the
index each panic exactly as the Rust slice operations do. -/
def seg_read (vm : VMEmulator) (segment : Segment) (index : Nat) : Outcome Int := do
  let (s, e) ← vm.get_segment_bounds segment
  if s ≤ e ∧ e ≤ RAM_SIZE then
    if index < e - s then .ok (vm.ram (s + index))
    else .panic "index out of bounds"
  else .panic "slice index out of range"

/-- Writing `get_segment_mut(segment)[index] = value`. -/
def seg_write (vm : VMEmulator) (segment : Segment) (index : Nat) (value : Int) :
    Outcome VMEmulator := do
  let (s, e) ← vm.get_segment_bounds segment
  if s ≤ e ∧ e ≤ RAM_SIZE then
    if index < e - s then .ok { vm with ram := setRam vm.ram (s + index) value }
    else .panic "index out of bounds"
  else .panic "slice index out of range"

/-- The shared value computation of `exec_push` and `exec_copy_seg`:
a constant is the index itself, anything else is a segment read. -/
def read_source (vm : VMEmulator) (segment : Segment) (index : Nat) : Outcome Int :=
  match segment with
  | .Constant => pure (Int.ofNat index)
  | _ => vm.seg_read segment index

/-- `exec_push`. -/
def exec_push (vm : VMEmulator) (segment : Segment) (index : Nat) : Outcome VMEmulator := do
  let value ← vm.read_source segment index
  vm.push_stack value

/-- `exec_pop`. -/
def exec_pop (vm : VMEmulator) (segment : Segment) (index : Nat) : Outcome VMEmulator := do
  let (value, vm1) ← (vm.pop_stack).mapError (fun e => "exec_pop failed: " ++ e)
  vm1.seg_write segment index value

/-- `exec_copy_seg`: the fused push/pop command; copies without touching
the stack. -/
def exec_copy_seg (vm : VMEmulator) (from_segment : Segment) (from_index : Nat)
    (to_segment : Segment) (to_index : Nat) : Outcome VMEmulator := do
  let value ← vm.read_source from_segment from_index
  vm.seg_write to_segment to_index value

/-- `exec_internal`: the built-in intrinsic dispatch.  Wrong arity,
an unknown id, and `i32` division by zero or overflow all `panic!` in
the Rust code. -/
def exec_internal (vm : VMEmulator) (internal_id num_args : Nat) : Outcome VMEmulator :=
  match internal_id with
  | 0 =>
    if num_args ≠ 2 then .panic "Expected Math.divide to be called with 2 args"
    else do
      let (a, vm1) ← (vm.pop_stack).mapError (fun e => "exec_internal failed: " ++ e)
      let (b, vm2) ← (vm1.pop_stack).mapError (fun e => "exec_internal failed: " ++ e)
      if a = 0 then .panic "attempt to divide by zero"
      else if b = -(2 ^ 31) ∧ a = -1 then .panic "attempt to divide with overflow"
      else vm2.push_stack (Int.tdiv b a)
  | 1 =>
    if num_args ≠ 2 then .panic "Expected Math.multiply to be called with 2 args"
    else do
      let (a, vm1) ← (vm.pop_stack).mapError (fun e => "exec_internal failed: " ++ e)
      let (b, vm2) ← (vm1.pop_stack).mapError (fun e => "exec_internal failed: " ++ e)
      vm2.push_stack (wrap32 (b * a))
  | _ => .panic "Unknown internal function"

/-- `exec_call`: the calling convention. -/
def exec_call (vm : VMEmulator) (function_ref : InCodeFuncRef) (num_args : Nat) :
    Outcome VMEmulator := do
  match vm.call_stack with
  | [] => .panic "call stack is empty"
  | f :: _ => do
    let vm ← vm.push_stack (wrap32 (Int.ofNat (f.index + 1)))
    let vm ← vm.push_stack (vm.ram LCL)
    let vm ← vm.push_stack (vm.ram ARG)
    let vm ← vm.push_stack (vm.ram THIS)
    let vm ← vm.push_stack (vm.ram THAT)
    let vm : VMEmulator :=
      { vm with ram := setRam vm.ram ARG (wrap32 (vm.ram SP - 5 - (num_args : Int))) }
    let vm : VMEmulator := { vm with ram := setRam vm.ram LCL (vm.ram SP) }
    .ok { vm with call_stack := VMStackFrame.new function_ref num_args :: vm.call_stack }

/-- One `self.ram[addr] = self.pop_global_stack()?` assignment of
`exec_return`. -/
def restore_register (vm : VMEmulator) (addr : Nat) : Outcome VMEmulator := do
  let (v, vm1) ← vm.pop_global_stack
  .ok (vm1.set_ram_reg addr v)

/-- `exec_return`: tear down the callee frame and hand the return value
to the caller. -/
def exec_return (vm : VMEmulator) : Outcome VMEmulator := do
  let (return_value, vm) ← vm.pop_stack
  let arg := vm.ram ARG
  let vm := vm.set_ram_reg SP (vm.ram LCL)
  let vm ← vm.restore_register THAT
  let vm ← vm.restore_register THIS
  let vm ← vm.restore_register ARG
  let vm ← vm.restore_register LCL
  let (_return_index, vm) ← vm.pop_global_stack
  let vm := vm.set_ram_reg SP arg
  let vm ← vm.push_global_stack return_value
  match vm.call_stack with
  | [] => .panic "call stack is empty"
  | _ :: rest =>
    match rest with
    | [] => .panic "call stack is empty"
    | caller :: rest2 =>
      .ok { vm with call_stack := { caller with index := caller.index + 1 } :: rest2 }

/-- `init`: SP := 256 and push a frame for `Sys.init`. -/
def init (vm : VMEmulator) : Outcome VMEmulator :=
  let vm1 : VMEmulator := { vm with ram := setRam vm.ram SP 256 }
  match vm1.program.get_function_ref "Sys.init" with
  | some init_func =>
    .ok { vm1 with call_stack := VMStackFrame.new init_func 0 :: vm1.call_stack }
  | none => .error "No Sys.init function found"

/-- Result value of a binary arithmetic operation (`b` was popped second
and is the left operand). -/
def arith_binary (op : Operation) (a b : Int) : Int :=
  match op with
  | .Add => wrap32 (b + a)
  | .Sub => wrap32 (b - a)
  | .And => wrap32 (Int.ofNat (Nat.land ((b % 2 ^ 32).toNat) ((a % 2 ^ 32).toNat)))
  | .Or => wrap32 (Int.ofNat (Nat.lor ((b % 2 ^ 32).toNat) ((a % 2 ^ 32).toNat)))
  | .Eq => if b = a then -1 else 0
  | .Lt => if b < a then -1 else 0
  | .Gt => if b > a then -1 else 0
  | .Neg => 0
  | .Not => 0

/-- `exec_arithmetic`. -/
def exec_arithmetic (vm : VMEmulator) (op : Operation) : Outcome VMEmulator := do
  match op with
  | .Neg => do
    let (a, vm1) ← vm.pop_stack
    vm1.push_stack (wrap32 (-a))
  | .Not => do
    let (a, vm1) ← vm.pop_stack
    vm1.push_stack (-a - 1)
  | _ => do
    let (a, vm1) ← vm.pop_stack
    let (b, vm2) ← vm1.pop_stack
    vm2.push_stack (arith_binary op a b)

/-- `get_command` through `next_command`: `Vec` indexing panics on an
out-of-range reference (this is how the unresolved-call sentinel fails). -/
def get_command (vm : VMEmulator) (f : InCodeFuncRef) (index : Nat) : Outcome Command :=
  match vm.program.get_vmfunction? f with
  | none => .panic "index out of bounds"
  | some fn =>
    match fn.commands.get? index with
    | none => .panic "index out of bounds"
    | some c => .ok c

/-- The `for _ in 0..num_locals { push_global_stack(0) }` loop of the
`Command::Function` case. -/
def push_zero_locals (vm : VMEmulator) : Nat → Outcome VMEmulator
  | 0 => .ok vm
  | n + 1 => do
    let vm1 ← vm.push_global_stack 0
    push_zero_locals vm1 n

/-- `get_stack` bounds + `peek_stack`. -/
def peek_stack (vm : VMEmulator) : Outcome Int := do
  let (_, local_end) ← vm.get_segment_bounds .Local
  let s := max local_end 256
  let e := asUsize (vm.ram SP)
  if s ≤ e ∧ e ≤ RAM_SIZE then
    if s < e then .ok (vm.ram (e - 1))
    else .panic "Stack is empty"
  else .panic "slice index out of range"

/-- Advance the top frame to the next command. -/
def advance_index (vm : VMEmulator) : Outcome VMEmulator :=
  match vm.call_stack with
  | [] => .panic "call stack is empty"
  | f :: rest => .ok { vm with call_stack := { f with index := f.index + 1 } :: rest }

/-- Set the top frame's command index (for branches). -/
def set_index (vm : VMEmulator) (index : Nat) : Outcome VMEmulator :=
  match vm.call_stack with
  | [] => .panic "call stack is empty"
  | f :: rest => .ok { vm with call_stack := { f with index := index } :: rest }

/-- `step`: execute exactly one command; `some code` signals a halt. -/
def step (vm : VMEmulator) : Outcome (Option Int × VMEmulator) := do
  let vm : VMEmulator := { vm with step_counter := vm.step_counter + 1 }
  match vm.call_stack with
  | [] => .error "No more commands to execute"
  | f :: _ => do
    let command ← vm.get_command f.function f.index
    match command with
    | .Function _ num_locals => do
      let vm1 ← vm.push_zero_locals num_locals
      let vm2 ← vm1.advance_index
      .ok (none, vm2)
    | .Call function_ref num_args =>
      match function_ref with
      | .Internal internal_id => do
        let vm1 ← (vm.exec_internal internal_id num_args).mapError
          (fun e => "failed step: " ++ e)
        let vm2 ← vm1.advance_index
        .ok (none, vm2)
      | .InCode in_code_func_ref => do
        let vm1 ← (vm.exec_call in_code_func_ref num_args).mapError
          (fun e => "failed step: " ++ e)
        .ok (none, vm1)
    | .Return =>
      if vm.call_stack.length = 1 then do
        let v ← vm.peek_stack
        .ok (some v, vm)
      else do
        let vm1 ← vm.exec_return
        .ok (none, vm1)
    | .Goto index => do
      let vm1 ← vm.set_index index
      .ok (none, vm1)
    | .If index => do
      let (v, vm1) ← (vm.pop_stack).mapError (fun e => "failed step: " ++ e)
      if v = -1 then do
        let vm2 ← vm1.set_index index
        .ok (none, vm2)
      else do
        let vm2 ← vm1.advance_index
        .ok (none, vm2)
    | .Push segment index => do
      let vm1 ← (vm.exec_push segment index).mapError (fun e => "failed step: " ++ e)
      let vm2 ← vm1.advance_index
      .ok (none, vm2)
    | .Pop segment index => do
      let vm1 ← (vm.exec_pop segment index).mapError (fun e => "failed step: " ++ e)
      let vm2 ← vm1.advance_index
      .ok (none, vm2)
    | .CopySeg fs fi ts ti => do
      let vm1 ← (vm.exec_copy_seg fs fi ts ti).mapError (fun e => "failed step: " ++ e)
      let vm2 ← vm1.advance_index
      .ok (none, vm2)
    | .Arithmetic op => do
      let vm1 ← (vm.exec_arithmetic op).mapError (fun e => "failed step: " ++ e)
      let vm2 ← vm1.advance_index
      .ok (none, vm2)

/-- The budget-exceeded message of `run`. -/
def budget_message (max_steps : Nat) : String :=
  "Program failed to finish within " ++ toString max_steps ++ " steps"

/-- The `loop` of `run`, with explicit fuel.  Each iteration of the Rust
loop increments `step_counter` and the loop exits once the counter
exceeds `max_steps`, so `max_steps + 2` fuel always suffices; the fuel-0
case is unreachable from `run`. -/
def run_loop (max_steps : Nat) : Nat → VMEmulator → Outcome Int
  | 0, _ => .panic "fuel exhausted"
  | fuel + 1, vm =>
    match vm.step with
    | .error m => .error m
    | .panic m => .panic m
    | .ok (some result, _) => .ok result
    | .ok (none, vm1) =>
      if vm1.step_counter > max_steps then .error (budget_message max_steps)
      else run_loop max_steps fuel vm1

/-- `run(max_steps)`. -/
def run (vm : VMEmulator) (max_steps : Nat) : Outcome Int := do
  let vm0 ← vm.init
  run_loop max_steps (max_steps + 2) vm0

/-- `get_internals`: the canonical intrinsic table. -/
def get_internals : List (String × FunctionRef) :=
  [("Math.divide", FunctionRef.Internal 0), ("Math.multiply", FunctionRef.Internal 1)]

end VMEmulator

/-! ## Program building (`vmcommand.rs`) -/

/-- `OptimizedToken` from `vmcommand.rs`. -/
inductive OptimizedToken where
  | Base (t : Token)
  | CopySeg (from_segment : Segment) (from_index : Nat)
            (to_segment : Segment) (to_index : Nat)
deriving Repr, DecidableEq

/-- `TokenizedFunction::get_optimized_tokens`: push/pop fusion over
adjacent token pairs. -/
def get_optimized_tokens : List Token → List OptimizedToken
  | [] => []
  | [a] => [OptimizedToken.Base a]
  | a :: b :: rest =>
    match a, b with
    | Token.Push s1 i1, Token.Pop s2 i2 =>
      OptimizedToken.CopySeg s1 i1 s2 i2 :: get_optimized_tokens rest
    | _, _ => OptimizedToken.Base a :: get_optimized_tokens (b :: rest)

/-- Per-function label table (`HashMap<String, usize>`). -/
abbrev LabelTable : Type := List (String × Nat)

/-- `HashMap::get` on a label table. -/
def LabelTable.get (t : LabelTable) (label : String) : Option Nat :=
  match t with
  | [] => none
  | (l, i) :: rest => if l = label then some i else LabelTable.get rest label

/-- Loop body of `TokenizedFunctionOptimized::build_label_table`:
`Label` tokens are removed while recording the index of the next real
command; a duplicate label is an error. -/
def build_label_table_aux (label_table : LabelTable) (command_index : Nat)
    (acc : List OptimizedToken) :
    List OptimizedToken → Outcome (LabelTable × List OptimizedToken)
  | [] => .ok (label_table, acc.reverse)
  | token :: rest =>
    match token with
    | OptimizedToken.Base (Token.Label label) =>
      match label_table.get label with
      | some _ => .error ("label \"" ++ label ++ "\" declared twice")
      | none =>
        build_label_table_aux (label_table ++ [(label, command_index)]) command_index acc rest
    | _ => build_label_table_aux label_table (command_index + 1) (token :: acc) rest

/-- `TokenizedFunctionOptimized::build_label_table`. -/
def build_label_table (func_tokens : List OptimizedToken) :
    Outcome (LabelTable × List OptimizedToken) :=
  build_label_table_aux [] 0 [] func_tokens

/-- `TokenizedFunction` from `vmcommand.rs` (tokens of one function,
starting with the `Function` declaration token). -/
structure TokenizedFunction where
  name : String
  commands : List Token
deriving Repr, DecidableEq

/-- `TokenizedFunction::from_tokens`. -/
def TokenizedFunction.from_tokens (tokens : List Token) : Outcome TokenizedFunction :=
  match tokens.get? 0 with
  | none => .error "Failed creating tokenized functions. No tokens provided."
  | some first_token =>
    match first_token with
    | Token.Function func_name _ => .ok ⟨func_name, tokens⟩
    | _ => .error "Failed creating tokenized function. Tokens don't start with a function declaration."

/-- `TokenizedFunctionOptimized` from `vmcommand.rs`. -/
structure TokenizedFunctionOptimized where
  name : String
  label_table : LabelTable
  commands : List OptimizedToken

/-- `TokenizedFunctionOptimized::from`. -/
def TokenizedFunctionOptimized.from (tf : TokenizedFunction) :
    Outcome TokenizedFunctionOptimized := do
  let optimized := get_optimized_tokens tf.commands
  let (label_table, command_tokens) ←
    (build_label_table optimized).mapError
      (fun e => "failed building label table for " ++ tf.name ++ ": " ++ e)
  .ok ⟨tf.name, label_table, command_tokens⟩

/-- Accumulating loop of `GroupByBound::next`: `cur` is the current
group, reversed; a token satisfying the predicate closes the group and
starts the next one. -/
def group_by_bound_go (pred : Token → Bool) (cur : List Token) :
    List Token → List (List Token)
  | [] => [cur.reverse]
  | t :: rest =>
    if pred t then cur.reverse :: group_by_bound_go pred [t] rest
    else group_by_bound_go pred (t :: cur) rest

/-- `GroupByBound::new(tokens, is_function)` as used by
`TokenizedFile::from_tokens`: the stream is cut before every `Function`
token (the first group may lack one, which then fails
`TokenizedFunction::from_tokens`). -/
def group_by_bound (pred : Token → Bool) : List Token → List (List Token)
  | [] => []
  | a :: rest => group_by_bound_go pred [a] rest

/-- The predicate `GroupByBound` is instantiated with in
`TokenizedFile::from_tokens`. -/
def is_function_token : Token → Bool
  | Token.Function _ _ => true
  | _ => false

/-- `TokenizedFile` from `vmcommand.rs`. -/
structure TokenizedFile where
  name : String
  functions : List TokenizedFunction
deriving Repr, DecidableEq

/-- Collect a list of outcomes (Rust `collect::<Result<Vec<_>, _>>`). -/
def Outcome.collectList {α : Type} : List (Outcome α) → Outcome (List α)
  | [] => .ok []
  | x :: rest => do
    let a ← x
    let as_ ← Outcome.collectList rest
    .ok (a :: as_)

/-- `TokenizedFile::from_tokens`. -/
def TokenizedFile.from_tokens (name : String) (tokens : List Token) :
    Outcome TokenizedFile := do
  let funcs ←
    (Outcome.collectList
      ((group_by_bound is_function_token tokens).map TokenizedFunction.from_tokens)).mapError
        (fun e => "Failed tokenizing file: " ++ e)
  .ok ⟨name, funcs⟩

/-- `TokenizedProgram::from_files`, starting from already-tokenized
files (the text tokenizer `parse_lines` is prior to the logic under
study; it never produces `Token::None` in its output).  A file with no
tokens is a hard error. -/
def TokenizedProgram.from_files (files : List (String × List Token)) :
    Outcome (List TokenizedFile) :=
  Outcome.collectList
    (files.map (fun fc =>
      if fc.2.length = 0 then
        .error ("Failed tokenizing program: File " ++ fc.1 ++ " has no vm commands")
      else TokenizedFile.from_tokens fc.1 fc.2))

/-- Phase 1 of `VMProgram::with_internals`: insert the in-code functions
of one file into the function table (`Internal` entries shadow code,
a second `InCode` entry is a fatal duplicate). -/
def build_function_table_file (file_index : Nat) :
    FunctionTable → Nat → List TokenizedFunction → Outcome FunctionTable
  | ft, _, [] => .ok ft
  | ft, function_index, tf :: rest =>
    match ft.get_by_left tf.name with
    | some (FunctionRef.InCode _) =>
      .error ("function \"" ++ tf.name ++ "\" declared twice")
    | some (FunctionRef.Internal _) =>
      build_function_table_file file_index ft (function_index + 1) rest
    | none =>
      build_function_table_file file_index
        ((tf.name, FunctionRef.new file_index function_index) :: ft)
        (function_index + 1) rest

/-- Phase 1 of `VMProgram::with_internals`, over all files. -/
def build_function_table : FunctionTable → Nat → List TokenizedFile → Outcome FunctionTable
  | ft, _, [] => .ok ft
  | ft, file_index, file :: rest => do
    let ft1 ← build_function_table_file file_index ft 0 file.functions
    build_function_table ft1 (file_index + 1) rest

/-- The warning text recorded for an unresolved call target. -/
def missing_function_warning (name : String) : String :=
  "function \"" ++ name ++ "\" does not exist"

/-- Body of the per-token conversion loop of `VMProgram::with_internals`:
one optimized token to one command, updating the file's `num_statics`
tally and the global warning list.  Unresolved calls degrade to a warning
and the sentinel `FunctionRef::new(1000, 1)`; unresolved branch labels
are fatal errors. -/
def convert_token (function_table : FunctionTable) (label_table : LabelTable)
    (token : OptimizedToken) (num_statics : Nat) (warnings : List String) :
    Outcome (Command × Nat × List String) :=
  match token with
  | OptimizedToken.CopySeg from_segment from_index to_segment to_index =>
    let ns1 := if from_segment = Segment.Static
      then max num_statics (from_index + 1) else num_statics
    let ns2 := if to_segment = Segment.Static
      then max ns1 (to_index + 1) else ns1
    pure (Command.CopySeg from_segment from_index to_segment to_index, ns2, warnings)
  | OptimizedToken.Base t =>
    match t with
    | Token.None => .panic "Did not expect Token::None"
    | Token.Neg => pure (Command.Arithmetic Operation.Neg, num_statics, warnings)
    | Token.Not => pure (Command.Arithmetic Operation.Not, num_statics, warnings)
    | Token.Add => pure (Command.Arithmetic Operation.Add, num_statics, warnings)
    | Token.Sub => pure (Command.Arithmetic Operation.Sub, num_statics, warnings)
    | Token.And => pure (Command.Arithmetic Operation.And, num_statics, warnings)
    | Token.Or => pure (Command.Arithmetic Operation.Or, num_statics, warnings)
    | Token.Eq => pure (Command.Arithmetic Operation.Eq, num_statics, warnings)
    | Token.Lt => pure (Command.Arithmetic Operation.Lt, num_statics, warnings)
    | Token.Gt => pure (Command.Arithmetic Operation.Gt, num_statics, warnings)
    | Token.Function _ _ => .panic "Did not expect Token::Function"
    | Token.Call func_to_call num_args =>
      match function_table.get_by_left func_to_call with
      | some func_ref => pure (Command.Call func_ref num_args, num_statics, warnings)
      | none =>
        pure (Command.Call (FunctionRef.new 1000 1) num_args, num_statics,
          warnings ++ [missing_function_warning func_to_call])
    | Token.Return => pure (Command.Return, num_statics, warnings)
    | Token.Label _ => .panic "Did not expect Token::Label"
    | Token.If label =>
      match label_table.get label with
      | some index => pure (Command.If index, num_statics, warnings)
      | none => .error ("label \"" ++ label ++ "\" does not exist")
    | Token.Goto label =>
      match label_table.get label with
      | some index => pure (Command.Goto index, num_statics, warnings)
      | none => .error ("label \"" ++ label ++ "\" does not exist")
    | Token.Push segment index =>
      let ns1 := if segment = Segment.Static
        then max num_statics (index + 1) else num_statics
      pure (Command.Push segment index, ns1, warnings)
    | Token.Pop segment index =>
      let ns1 := if segment = Segment.Static
        then max num_statics (index + 1) else num_statics
      pure (Command.Pop segment index, ns1, warnings)

/-- The per-token conversion loop of `VMProgram::with_internals`. -/
def convert_tokens (function_table : FunctionTable) (label_table : LabelTable) :
    List OptimizedToken → Nat → List String → Outcome (List Command × Nat × List String)
  | [], num_statics, warnings => .ok ([], num_statics, warnings)
  | token :: rest, num_statics, warnings => do
    let (command, num_statics, warnings) ←
      convert_token function_table label_table token num_statics warnings
    let (commands, num_statics, warnings) ←
      convert_tokens function_table label_table rest num_statics warnings
    .ok (command :: commands, num_statics, warnings)

/-- The highest static slot referenced by one command, plus one
(0 when the command references no static): the quantity the
`num_statics` tally of `convert_token` accumulates. -/
def command_static_tally : Command → Nat
  | Command.Push Segment.Static i => i + 1
  | Command.Pop Segment.Static i => i + 1
  | Command.CopySeg s1 i1 s2 i2 =>
    max (if s1 = Segment.Static then i1 + 1 else 0)
        (if s2 = Segment.Static then i2 + 1 else 0)
  | _ => 0

/-- The highest static slot referenced by a command list, plus one. -/
def commands_static_tally (l : List Command) : Nat :=
  l.foldr (fun c acc => max (command_static_tally c) acc) 0

/-- The highest static slot referenced by any command of any function in
the list, plus one. -/
def functions_static_tally (l : List VMFunction) : Nat :=
  l.foldr (fun fn acc => max (commands_static_tally fn.commands) acc) 0

/-- The prefix-sum property of `static_offset`: each file's offset is
the running sum of the `num_statics` of the files before it. -/
def offsets_ok : Nat → List VMFile → Prop
  | _, [] => True
  | so, f :: rest => f.static_offset = so ∧ offsets_ok (so + f.num_statics) rest

/-- Per-function part of the file loop of `VMProgram::with_internals`:
the first optimized token must be the `Function` declaration (whose name
is then required to be in the function table), and the remaining tokens
are converted into commands after the leading `Command::Function`. -/
def build_vmfunction (function_table : FunctionTable) (tfo : TokenizedFunctionOptimized)
    (num_statics : Nat) (warnings : List String) :
    Outcome (VMFunction × Nat × List String) :=
  match tfo.commands with
  | OptimizedToken.Base (Token.Function func_name num_locals) :: rest =>
    match function_table.get_by_left func_name with
    | none => .panic "Expected to find function name in function table"
    | some function_ref => do
      let (commands, num_statics, warnings) ←
        convert_tokens function_table tfo.label_table rest num_statics warnings
      .ok (⟨function_ref, func_name, num_locals,
            Command.Function function_ref num_locals :: commands⟩,
           num_statics, warnings)
  | _ => .panic "Expected func to start with Token::Function"

/-- Loop over one file's functions in `VMProgram::with_internals`. -/
def build_file_functions (function_table : FunctionTable) :
    List TokenizedFunction → Nat → List String →
    Outcome (List VMFunction × Nat × List String)
  | [], num_statics, warnings => .ok ([], num_statics, warnings)
  | tf :: rest, num_statics, warnings => do
    let tfo ← TokenizedFunctionOptimized.from tf
    let (vmfunc, num_statics, warnings) ←
      build_vmfunction function_table tfo num_statics warnings
    let (funcs, num_statics, warnings) ←
      build_file_functions function_table rest num_statics warnings
    .ok (vmfunc :: funcs, num_statics, warnings)

/-- Loop over the files in `VMProgram::with_internals`, threading the
running `static_offset`. -/
def build_files (function_table : FunctionTable) :
    List TokenizedFile → Nat → List String → Outcome (List VMFile × List String)
  | [], _, warnings => .ok ([], warnings)
  | file :: rest, static_offset, warnings => do
    let (functions, num_statics, warnings) ←
      build_file_functions function_table file.functions 0 warnings
    let vmfile : VMFile := ⟨file.name, functions, num_statics, static_offset⟩
    let (vmfiles, warnings) ←
      build_files function_table rest (static_offset + num_statics) warnings
    .ok (vmfile :: vmfiles, warnings)

/-- `VMProgram::with_internals`, from tokenized file contents. -/
def VMProgram.with_internals (files : List (String × List Token))
    (internal_funcs : Option (List (String × FunctionRef))) : Outcome VMProgram := do
  let tokenized_files ←
    (TokenizedProgram.from_files files).mapError
      (fun e => "Failed to create VMProgram: " ++ e)
  let seeded : FunctionTable :=
    match internal_funcs with
    | none => []
    | some internals => internals.reverse
  let function_table ← build_function_table seeded 0 tokenized_files
  let (vmfiles, warnings) ← build_files function_table tokenized_files 0 []
  .ok ⟨vmfiles, function_table, warnings⟩

/-- `VMProgram::new`. -/
def VMProgram.new (files : List (String × List Token)) : Outcome VMProgram :=
  VMProgram.with_internals files none

/-! ## The L-to-VM compiler slice (`ast.rs`, `compiler.rs`)

Only the method-body compiler is embedded (statements and expressions);
it is what the `while`-lowering claims are about.  `VMSegment` and
`VMToken` of the compiler are re-exports of `Segment` and `Token`.
The record structs `WhileStatement`, `LetStatement`, ... are inlined
into the `Stmt` constructors, and `Block` is its `statements` list. -/

/-- `Op` from `ast.rs`. -/
inductive Op where
  | Plus
  | Sub
  | Multiply
  | Divide
  | Lt
  | Lte
  | Gt
  | Gte
  | Eq
  | Ne
  | Dot
deriving Repr, DecidableEq

mutual

/-- `Term` from `ast.rs`. -/
inductive Term where
  | Number (n : Nat)
  | BoolLit (b : Bool)
  | StringLit (s : String)
  | Array (es : List Expression)
  | Identifier (name : String)
  | BinaryOp (op : Op) (left : Term) (right : Term)
  | Call (func : String) (args : List Expression)
  | New (cls : String) (args : List Expression)

/-- `Expression` from `ast.rs` (a wrapper around `Term`). -/
inductive Expression where
  | mk (term : Term)

end

/-- The `term` accessor of `Expression`. -/
def Expression.term : Expression → Term
  | .mk t => t

theorem Term.one_le_sizeOf (t : Term) : 1 ≤ sizeOf t := by
  cases t <;> simp <;> omega

/-- `Statement` from `ast.rs`, with the payload structs inlined. -/
inductive Stmt where
  | Let (name : String) (type_name : String) (value_expr : Expression)
  | While (condition_expr : Expression) (block : List Stmt)
  | If (condition_expr : Expression) (block : List Stmt) (else_block : Option (List Stmt))
  | Return (e : Expression)
  | Assignment (dest_expr : Expression) (value_expr : Expression)
  | Expr (e : Expression)

/-- `MemRef` from `compiler.rs`. -/
structure MemRef where
  segment : Segment
  index : Nat
  type_id : Nat
deriving Repr, DecidableEq

/-- `MemRef::as_pop_token`. -/
def MemRef.as_pop_token (m : MemRef) : Token := Token.Pop m.segment m.index

/-- `MemRef::as_push_token`. -/
def MemRef.as_push_token (m : MemRef) : Token := Token.Push m.segment m.index

/-- `Namespace` from `compiler.rs` (name to `MemRef`). -/
abbrev Namespace : Type := List (String × MemRef)

/-- `Namespace::get`. -/
def Namespace.get (ns : Namespace) (name : String) : Option MemRef :=
  match ns with
  | [] => none
  | (n, m) :: rest => if n = name then some m else Namespace.get rest name

/-- `Namespace::segment_size`: how many registered names live in the
given segment. -/
def Namespace.segment_size (ns : Namespace) (segment : Segment) : Nat :=
  (ns.filter (fun p => p.2.segment = segment)).length

/-- `Namespace::register`: `none` when the name exists, otherwise the
assigned segment index together with the extended namespace. -/
def Namespace.register (ns : Namespace) (name : String) (segment : Segment)
    (type_id : Nat) : Option (Nat × Namespace) :=
  match ns.get name with
  | some _ => none
  | none =>
    let index := ns.segment_size segment
    some (index, ns ++ [(name, ⟨segment, index, type_id⟩)])

/-- `ObjectTypeField` from `compiler.rs`. -/
structure ObjectTypeField where
  type_id : Nat
  index : Nat
deriving Repr, DecidableEq

/-- `ObjectType`: its `OrderedMap` of fields as an ordered association
list. -/
abbrev ObjectType : Type := List (String × ObjectTypeField)

/-- `ObjectType::get_field`. -/
def ObjectType.get_field (t : ObjectType) (field_name : String) : Option ObjectTypeField :=
  match t with
  | [] => none
  | (n, f) :: rest => if n = field_name then some f else ObjectType.get_field rest field_name

/-- The read-only compilation context a `MethodDeclCompiler` sees: the
module's `ObjectTypeTable` (ordered, so `get_by_id` is positional), the
`StaticsTable`, and the enclosing class's instance-field namespace. -/
structure MethodCtx where
  object_types : List (String × ObjectType)
  statics : List ((String × String) × MemRef)
  instance_names : Namespace
  class_name : String

/-- `ModuleCompiler::get_static_field`. -/
def MethodCtx.get_static_field (ctx : MethodCtx) (class_name field_name : String) :
    Option MemRef :=
  (ctx.statics.find? (fun p => p.1 = (class_name, field_name))).map Prod.snd

/-- `ObjectTypeTable::get_by_id` (positional lookup in the ordered
map). -/
def MethodCtx.get_type_by_id (ctx : MethodCtx) (id : Nat) : Option ObjectType :=
  (ctx.object_types.get? id).map Prod.snd

/-- `ModuleCompiler::resolve_type` (`index_of` in the ordered map). -/
def MethodCtx.resolve_type (ctx : MethodCtx) (type_name : String) : Outcome Nat :=
  match ctx.object_types.findIdx? (fun p => p.1 = type_name) with
  | some id => .ok id
  | none => .error (type_name ++ " is not a known type")

/-- `ClassDeclCompiler::get_instance_field` (lookup in the class's
instance-field namespace). -/
def ns_get_instance_field (ctx : MethodCtx) (field_name : String) : Option MemRef :=
  ctx.instance_names.get field_name

/-- `MethodDeclCompiler::compile_reference`. -/
def compile_reference (_ctx : MethodCtx) (ns : Namespace) (reference : String) :
    Outcome (List Token) :=
  match ns.get reference with
  | some mem_ref => .ok [mem_ref.as_push_token]
  | none =>
    .error ("variable \"" ++ reference ++ "\" has not been declared with a let statement")

mutual

/-- `MethodDeclCompiler::compile_term`. -/
def compile_term (ctx : MethodCtx) (ns : Namespace) : Term → Outcome (List Token)
  | .Number n => .ok [Token.Push Segment.Constant (n % 2 ^ 16)]
  | .BinaryOp op left right => compile_binary_op ctx ns op left right
  | .Identifier name => compile_reference ctx ns name
  | .New class_name args => compile_call ctx ns class_name "new" args
  | _ => .panic "Do not know how to compile term"
termination_by t => (sizeOf t, 0)

/-- `MethodDeclCompiler::compile_call`. -/
def compile_call (ctx : MethodCtx) (ns : Namespace) (class_name func_name : String)
    (args : List Expression) : Outcome (List Token) := do
  let ts ← compile_expressions ctx ns args
  .ok (ts ++ [Token.Call (class_name ++ "." ++ func_name) args.length])
termination_by (sizeOf args, 1)

/-- The argument loop inside `compile_call`. -/
def compile_expressions (ctx : MethodCtx) (ns : Namespace) :
    List Expression → Outcome (List Token)
  | [] => .ok []
  | e :: rest => do
    let ts ← compile_expression ctx ns e
    let rs ← compile_expressions ctx ns rest
    .ok (ts ++ rs)
termination_by l => (sizeOf l, 0)

/-- `MethodDeclCompiler::compile_dot_op`. -/
def compile_dot_op (ctx : MethodCtx) (ns : Namespace) (left right : Term) :
    Outcome (List Token) :=
  match left with
  | .Identifier left_identifier =>
    if left_identifier = "this" then
      match right with
      | .Identifier instance_field_name =>
        match ns_get_instance_field ctx instance_field_name with
        | some mem_ref => .ok [mem_ref.as_push_token]
        | none =>
          .error ("instance field \"" ++ instance_field_name ++ "\" has not been declared")
      | .Call _ _ => .panic "Not sure how to call instance methods yet"
      | _ => .panic "Not sure how to deal with this dot"
    else
      match ns.get left_identifier with
      | some left_mem_ref =>
        let tokens := [left_mem_ref.as_push_token, Token.Pop Segment.Pointer 1]
        match ctx.get_type_by_id left_mem_ref.type_id with
        | none => .panic "was not able to get ObjectType from MemRef"
        | some left_obj_type =>
          match right with
          | .Identifier instance_field_name =>
            match left_obj_type.get_field instance_field_name with
            | some field =>
              .ok (tokens ++ [Token.Push Segment.That field.index])
            | none =>
              .error ("Field " ++ instance_field_name ++ " does not exist on " ++
                left_identifier)
          | _ => .panic "Do not know how to resolve instance field lookup"
      | none =>
        match right with
        | .Identifier static_field_name =>
          match ctx.get_static_field left_identifier static_field_name with
          | some mem_ref => .ok [mem_ref.as_push_token]
          | none => .panic "Not sure how to resolve identifier lookup"
        | .Call func_name arguments => compile_call ctx ns left_identifier func_name arguments
        | _ => .panic "Not sure what to do with dot"
  | _ => .panic "Not sure how to resolve dot"
termination_by (sizeOf left + sizeOf right, 2)

/-- `MethodDeclCompiler::compile_binary_op`. -/
def compile_binary_op (ctx : MethodCtx) (ns : Namespace) (op : Op) (left right : Term) :
    Outcome (List Token) :=
  if op = Op.Dot then compile_dot_op ctx ns left right
  else do
    let lt ← compile_term ctx ns left
    let rt ← compile_term ctx ns right
    let op_token ←
      match op with
      | .Plus => pure Token.Add
      | .Sub => pure Token.Sub
      | .Lt => pure Token.Lt
      | .Gt => pure Token.Gt
      | .Eq => pure Token.Eq
      | _ => (.panic "Do not know how to handle op" : Outcome Token)
    .ok (lt ++ rt ++ [op_token])
termination_by (sizeOf left + sizeOf right, 3)
decreasing_by
  all_goals
    first
      | decreasing_tactic
      | (apply Prod.Lex.left
         have hl := Term.one_le_sizeOf left
         have hr := Term.one_le_sizeOf right
         simp_wf
         omega)

/-- `MethodDeclCompiler::compile_expression`. -/
def compile_expression (ctx : MethodCtx) (ns : Namespace) :
    Expression → Outcome (List Token)
  | .mk t => compile_term ctx ns t
termination_by e => (sizeOf e, 0)

end

/-- `MethodDeclCompiler::compile_let_statement`: registers the local
first (so the initializer sees it), then compiles the value. -/
def compile_let_statement (ctx : MethodCtx) (ns : Namespace) (name type_name : String)
    (value_expr : Expression) : Outcome (List Token × Namespace) := do
  let type_id ← ctx.resolve_type type_name
  match ns.register name Segment.Local type_id with
  | some (index, ns1) => do
    let tokens ← compile_expression ctx ns1 value_expr
    .ok (tokens ++ [Token.Pop Segment.Local index], ns1)
  | none =>
    .error ("a variable with the name \"" ++ name ++ "\" has already been declared")

/-- `MethodDeclCompiler::compile_assignment_statement`. -/
def compile_assignment_statement (ctx : MethodCtx) (ns : Namespace)
    (dest_expr value_expr : Expression) : Outcome (List Token) := do
  let tokens ← compile_expression ctx ns value_expr
  let pop_token ←
    match dest_expr.term with
    | .BinaryOp Op.Dot left right =>
      match left, right with
      | .Identifier left_identifier, .Identifier field_name =>
        if left_identifier = "this" then
          match ns_get_instance_field ctx field_name with
          | some mem_ref => pure mem_ref.as_pop_token
          | none => (.error ("instance field \"" ++ field_name ++ "\" is not declared") :
              Outcome Token)
        else
          match ctx.get_static_field left_identifier field_name with
          | some mem_ref => pure mem_ref.as_pop_token
          | none => (.panic "Not sure how to assign to dot" : Outcome Token)
      | _, _ => (.panic "Not sure how to assign to dot" : Outcome Token)
    | .Identifier name =>
      match ns.get name with
      | some mem_ref => pure mem_ref.as_pop_token
      | none =>
        (.error ("variable \"" ++ name ++ "\" has never been declared") : Outcome Token)
    | _ => (.panic "Do not know how to resolve term" : Outcome Token)
  .ok (tokens ++ [pop_token])

mutual

/-- `MethodDeclCompiler::compile_while_statement`: the `WHILE` /
`WHILE_END` labels are FIXED strings, not freshened per loop. -/
def compile_while_statement (ctx : MethodCtx) (ns : Namespace)
    (condition_expr : Expression) (block : List Stmt) :
    Outcome (List Token × Namespace) := do
  let start_label := "WHILE"
  let end_label := "WHILE_END"
  let cond_tokens ← compile_expression ctx ns condition_expr
  let (block_tokens, ns1) ← compile_block ctx ns block
  .ok ([Token.Label start_label] ++ cond_tokens ++ [Token.Not, Token.If end_label] ++
       block_tokens ++ [Token.Goto start_label, Token.Label end_label], ns1)
termination_by sizeOf block + 1

/-- `MethodDeclCompiler::compile_block`. -/
def compile_block (ctx : MethodCtx) (ns : Namespace) :
    List Stmt → Outcome (List Token × Namespace)
  | [] => .ok ([], ns)
  | stmt :: rest => do
    let (ts, ns1) ←
      match stmt with
      | Stmt.Return e => do
        let et ← compile_expression ctx ns e
        pure (et ++ [Token.Return], ns)
      | Stmt.Let name type_name value_expr =>
        compile_let_statement ctx ns name type_name value_expr
      | Stmt.While condition_expr block =>
        compile_while_statement ctx ns condition_expr block
      | Stmt.Assignment dest_expr value_expr => do
        let ts ← compile_assignment_statement ctx ns dest_expr value_expr
        pure (ts, ns)
      | _ => (.panic "Can not handle statement" : Outcome (List Token × Namespace))
    let (rs, ns2) ← compile_block ctx ns1 rest
    .ok (ts ++ rs, ns2)
termination_by l => sizeOf l

end

/-! ## Concrete fixtures used by witnesses and counterexamples -/

/-- A call-stack frame used by concrete witness states: function (0,0),
command index 7, no arguments, empty operand stack. -/
def frameW : VMStackFrame := ⟨0, ⟨0, 0⟩, 7, 0⟩

/-- A concrete emulator state with SP = 260 and one frame. -/
def vmW : VMEmulator :=
  ⟨VMProgram.empty, fun a => if a = 0 then 260 else 0, [frameW], 0⟩

/-- A concrete two-frame state ready to execute a `return`: SP = 266,
LCL = 261, ARG = 256, and every other RAM cell holds its own address. -/
def vmW_ret : VMEmulator :=
  ⟨VMProgram.empty,
   fun a => if a = 0 then 266 else if a = 1 then 261 else if a = 2 then 256 else Int.ofNat a,
   [⟨1, ⟨0, 0⟩, 3, 0⟩, frameW], 0⟩

/-- A concrete state with two operands on the stack (10 below 2),
owned by the single frame. -/
def vmW_div : VMEmulator :=
  ⟨VMProgram.empty,
   fun a => if a = 0 then 258 else if a = 256 then 10 else if a = 257 then 2 else 0,
   [⟨2, ⟨0, 0⟩, 0, 0⟩], 0⟩

/-- A one-function program whose only command pops into `temp 0`. -/
def progC4pop : VMProgram :=
  ⟨[⟨"Main.vm", [⟨FunctionRef.InCode ⟨0, 0⟩, "Main.f", 0, [Command.Pop Segment.Temp 0]⟩], 0, 0⟩],
   [("Main.f", FunctionRef.InCode ⟨0, 0⟩)], []⟩

/-- About to execute `pop temp 0` with a frame owning no operands even
though the global stack below 300 is non-empty. -/
def vmC4pop : VMEmulator :=
  ⟨progC4pop, fun a => if a = 0 then 300 else 0, [⟨0, ⟨0, 0⟩, 0, 0⟩], 0⟩

/-- A one-function program whose only command is the out-of-range
`push temp 8` (the temp segment has 8 slots, indices 0..7). -/
def progC4push : VMProgram :=
  ⟨[⟨"Main.vm", [⟨FunctionRef.InCode ⟨0, 0⟩, "Main.f", 0, [Command.Push Segment.Temp 8]⟩], 0, 0⟩],
   [("Main.f", FunctionRef.InCode ⟨0, 0⟩)], []⟩

/-- About to execute the out-of-range `push temp 8`. -/
def vmC4 : VMEmulator :=
  ⟨progC4push, fun a => if a = 0 then 256 else 0, [⟨0, ⟨0, 0⟩, 0, 0⟩], 0⟩

/-- Token stream of a file with a dead call to the non-existent
`Lib.missing`. -/
def progC5tokens : List (String × List Token) :=
  [("Main.vm",
    [Token.Function "Main.main" 0, Token.Call "Lib.missing" 0,
     Token.Push Segment.Constant 0, Token.Return])]

/-- Token stream of a file with a `goto` to the undeclared label
`NOPE`. -/
def progC5bad : List (String × List Token) :=
  [("Main.vm", [Token.Function "Main.main" 0, Token.Goto "NOPE", Token.Return])]

/-- Tokenized file touching `static 4`. -/
def tfC6a : TokenizedFile :=
  ⟨"A.vm", [⟨"A.f", [Token.Function "A.f" 0, Token.Push Segment.Static 4, Token.Return]⟩]⟩

/-- Tokenized file touching `static 2`. -/
def tfC6b : TokenizedFile :=
  ⟨"B.vm", [⟨"B.g", [Token.Function "B.g" 0, Token.Pop Segment.Static 2, Token.Return]⟩]⟩

/-- Function table for the two files above. -/
def ftC6 : FunctionTable :=
  [("B.g", FunctionRef.InCode ⟨1, 0⟩), ("A.f", FunctionRef.InCode ⟨0, 0⟩)]

/-- The built files for the two-file static layout example: 5 statics at
offset 0, then 3 statics at offset 5. -/
def filesC6 : List VMFile :=
  [⟨"A.vm",
    [⟨FunctionRef.InCode ⟨0, 0⟩, "A.f", 0,
      [Command.Function (FunctionRef.InCode ⟨0, 0⟩) 0,
       Command.Push Segment.Static 4, Command.Return]⟩], 5, 0⟩,
   ⟨"B.vm",
    [⟨FunctionRef.InCode ⟨1, 0⟩, "B.g", 0,
      [Command.Function (FunctionRef.InCode ⟨1, 0⟩) 0,
       Command.Pop Segment.Static 2, Command.Return]⟩], 3, 5⟩]

/-- An emulator state whose current function lives in the second file of
`filesC6`. -/
def vmC6 : VMEmulator :=
  ⟨⟨filesC6, ftC6, []⟩, fun a => Int.ofNat a, [⟨0, ⟨1, 0⟩, 0, 0⟩], 0⟩

/-- A program whose `Sys.init` pushes 10 and returns: it halts at its
third step. -/
def progC7 : VMProgram :=
  ⟨[⟨"Sys.vm",
     [⟨FunctionRef.InCode ⟨0, 0⟩, "Sys.init", 0,
       [Command.Function (FunctionRef.InCode ⟨0, 0⟩) 0,
        Command.Push Segment.Constant 10, Command.Return]⟩], 0, 0⟩],
   [("Sys.init", FunctionRef.InCode ⟨0, 0⟩)], []⟩

/-- The state of `progC7` right after `init`. -/
def vmC7init : VMEmulator :=
  ⟨progC7, setRam (fun _ => 0) SP 256, [VMStackFrame.new ⟨0, 0⟩ 0], 0⟩

/-- An empty method-compilation context for class `Main`. -/
def ctxC8 : MethodCtx := ⟨[], [], [], "Main"⟩

/-- `while (1) {}`. -/
def wstmtC8 : Stmt := Stmt.While (Expression.mk (Term.Number 1)) []

/-- The token output of compiling two consecutive `while (1) {}` loops:
the fixed `WHILE` / `WHILE_END` labels appear twice. -/
def toksC8 : List Token :=
  [Token.Label "WHILE", Token.Push Segment.Constant 1, Token.Not, Token.If "WHILE_END",
   Token.Goto "WHILE", Token.Label "WHILE_END",
   Token.Label "WHILE", Token.Push Segment.Constant 1, Token.Not, Token.If "WHILE_END",
   Token.Goto "WHILE", Token.Label "WHILE_END"]

/-- Iterated `step`, stopping at the first halt: the reference notion of
"the program halts within k steps" used to state the budget property of
`run`. -/
def run_steps (vm : VMEmulator) : Nat → Outcome (Option Int × VMEmulator)
  | 0 => .ok (none, vm)
  | k + 1 =>
    match vm.step with
    | .ok (some v, w) => .ok (some v, w)
    | .ok (none, w) => run_steps w k
    | .error m => .error m
    | .panic m => .panic m

/-! ## Helper lemmas about the arithmetic and stack primitives -/

@[simp] theorem Outcome.pure_eq {α : Type} (a : α) : (pure a : Outcome α) = Outcome.ok a :=
  rfl

theorem wrap32_eq {n : Int} (h1 : -2147483648 ≤ n) (h2 : n < 2147483648) : wrap32 n = n := by
  unfold wrap32
  simp only [show ((2 : Int) ^ 31 = 2147483648) from by norm_num,
    show ((2 : Int) ^ 32 = 4294967296) from by norm_num]
  omega

theorem asUsize_eq {v : Int} (h1 : 0 ≤ v) (h2 : v < 18446744073709551616) :
    asUsize v = v.toNat := by
  unfold asUsize
  simp only [show ((2 : Int) ^ 64 = 18446744073709551616) from by norm_num]
  omega

theorem RAM_SIZE_eq : RAM_SIZE = 24577 := rfl

namespace VMEmulator

theorem push_global_stack_spec (vm : VMEmulator) (v : Int)
    (h1 : 256 ≤ vm.ram SP) (h2 : vm.ram SP < RAM_SIZE) :
    vm.push_global_stack v =
      .ok { vm with ram := setRam (setRam vm.ram SP (vm.ram SP + 1)) (vm.ram SP).toNat v } := by
  have hR := RAM_SIZE_eq
  rw [RAM_SIZE_eq] at h2
  have hw : wrap32 (vm.ram SP + 1) = vm.ram SP + 1 := wrap32_eq (by omega) (by omega)
  have ha : asUsize (vm.ram SP + 1) = (vm.ram SP + 1).toNat :=
    asUsize_eq (by omega) (by omega)
  have he : (vm.ram SP + 1).toNat - 1 = (vm.ram SP).toNat := by omega
  simp only [push_global_stack, hw, ha]
  rw [if_pos (by omega), if_pos (by omega), he]

theorem pop_global_stack_spec (vm : VMEmulator)
    (h1 : 256 < vm.ram SP) (h2 : vm.ram SP ≤ RAM_SIZE) :
    vm.pop_global_stack =
      .ok (vm.ram (vm.ram SP - 1).toNat, { vm with ram := setRam vm.ram SP (vm.ram SP - 1) }) := by
  have hR := RAM_SIZE_eq
  rw [RAM_SIZE_eq] at h2
  have hw : wrap32 (vm.ram SP - 1) = vm.ram SP - 1 := wrap32_eq (by omega) (by omega)
  have ha : asUsize (vm.ram SP - 1) = (vm.ram SP - 1).toNat :=
    asUsize_eq (by omega) (by omega)
  simp only [pop_global_stack, hw, ha]
  rw [if_neg (by omega), if_pos (by omega)]
  rw [setRam_other _ _ _ _ (show (vm.ram SP - 1).toNat ≠ SP from by
    show (vm.ram SP - 1).toNat ≠ 0
    omega)]

theorem push_stack_spec (vm : VMEmulator) (f : VMStackFrame) (rest : List VMStackFrame)
    (v : Int) (hcs : vm.call_stack = f :: rest)
    (h1 : 256 ≤ vm.ram SP) (h2 : vm.ram SP < RAM_SIZE) :
    vm.push_stack v =
      .ok { vm with call_stack := { f with stack_size := f.stack_size + 1 } :: rest,
                    ram := setRam (setRam vm.ram SP (vm.ram SP + 1)) (vm.ram SP).toNat v } := by
  simp only [push_stack, hcs]
  exact push_global_stack_spec _ v h1 h2

theorem pop_stack_spec (vm : VMEmulator) (f : VMStackFrame) (rest : List VMStackFrame)
    (hcs : vm.call_stack = f :: rest) (hsize : 0 < f.stack_size)
    (h1 : 256 < vm.ram SP) (h2 : vm.ram SP ≤ RAM_SIZE) :
    vm.pop_stack =
      .ok (vm.ram (vm.ram SP - 1).toNat,
           { vm with call_stack := { f with stack_size := f.stack_size - 1 } :: rest,
                     ram := setRam vm.ram SP (vm.ram SP - 1) }) := by
  simp only [pop_stack, hcs]
  rw [if_pos hsize]
  exact pop_global_stack_spec _ h1 h2

theorem pop_stack_empty (vm : VMEmulator) (f : VMStackFrame) (rest : List VMStackFrame)
    (hcs : vm.call_stack = f :: rest) (hsize : f.stack_size = 0) :
    vm.pop_stack = .error "local stack is empty" := by
  simp only [pop_stack, hcs, hsize]
  norm_num

/-- `push_stack` on a well-formed state, as recorded facts about the
result (keeps proof terms small when chaining stack operations). -/
theorem push_stack_fact (vm : VMEmulator) (f : VMStackFrame) (rest : List VMStackFrame)
    (v : Int) (hcs : vm.call_stack = f :: rest)
    (h1 : 256 ≤ vm.ram SP) (h2 : vm.ram SP < RAM_SIZE) :
    ∃ vm', vm.push_stack v = .ok vm' ∧
      vm'.program = vm.program ∧
      vm'.step_counter = vm.step_counter ∧
      vm'.call_stack = { f with stack_size := f.stack_size + 1 } :: rest ∧
      vm'.ram SP = vm.ram SP + 1 ∧
      vm'.ram (vm.ram SP).toNat = v ∧
      (∀ a : Nat, a ≠ SP → a ≠ (vm.ram SP).toNat → vm'.ram a = vm.ram a) := by
  have hSP : SP = 0 := rfl
  have hRS : RAM_SIZE = 24577 := rfl
  refine ⟨_, push_stack_spec vm f rest v hcs h1 h2, rfl, rfl, rfl, ?_, ?_, ?_⟩
  · simp only [setRam]
    split_ifs <;> omega
  · simp only [setRam]
    split_ifs <;> omega
  · intro a ha1 ha2
    simp only [setRam]
    split_ifs <;> omega

/-- `pop_global_stack` on a well-formed state, as recorded facts. -/
theorem pop_global_stack_fact (vm : VMEmulator)
    (h1 : 256 < vm.ram SP) (h2 : vm.ram SP ≤ RAM_SIZE) :
    ∃ vm', vm.pop_global_stack = .ok (vm.ram (vm.ram SP - 1).toNat, vm') ∧
      vm'.program = vm.program ∧
      vm'.step_counter = vm.step_counter ∧
      vm'.call_stack = vm.call_stack ∧
      vm'.ram SP = vm.ram SP - 1 ∧
      (∀ a : Nat, a ≠ SP → vm'.ram a = vm.ram a) := by
  have hSP : SP = 0 := rfl
  have hRS : RAM_SIZE = 24577 := rfl
  refine ⟨_, pop_global_stack_spec vm h1 h2, rfl, rfl, rfl, ?_, ?_⟩
  · simp only [setRam]
    split_ifs <;> omega
  · intro a ha1
    simp only [setRam]
    split_ifs <;> omega

/-- `push_global_stack` on a well-formed state, as recorded facts. -/
theorem push_global_stack_fact (vm : VMEmulator) (v : Int)
    (h1 : 256 ≤ vm.ram SP) (h2 : vm.ram SP < RAM_SIZE) :
    ∃ vm', vm.push_global_stack v = .ok vm' ∧
      vm'.program = vm.program ∧
      vm'.step_counter = vm.step_counter ∧
      vm'.call_stack = vm.call_stack ∧
      vm'.ram SP = vm.ram SP + 1 ∧
      vm'.ram (vm.ram SP).toNat = v ∧
      (∀ a : Nat, a ≠ SP → a ≠ (vm.ram SP).toNat → vm'.ram a = vm.ram a) := by
  have hSP : SP = 0 := rfl
  have hRS : RAM_SIZE = 24577 := rfl
  refine ⟨_, push_global_stack_spec vm v h1 h2, rfl, rfl, rfl, ?_, ?_, ?_⟩
  · simp only [setRam]
    split_ifs <;> omega
  · simp only [setRam]
    split_ifs <;> omega
  · intro a ha1 ha2
    simp only [setRam]
    split_ifs <;> omega

theorem set_ram_reg_ram_same (vm : VMEmulator) (a : Nat) (v : Int) :
    (vm.set_ram_reg a v).ram a = v := setRam_same _ _ _

theorem set_ram_reg_ram_other (vm : VMEmulator) (a : Nat) (v : Int) (b : Nat) (h : b ≠ a) :
    (vm.set_ram_reg a v).ram b = vm.ram b := setRam_other _ _ _ _ h

theorem set_ram_reg_call_stack (vm : VMEmulator) (a : Nat) (v : Int) :
    (vm.set_ram_reg a v).call_stack = vm.call_stack := rfl

theorem set_ram_reg_program (vm : VMEmulator) (a : Nat) (v : Int) :
    (vm.set_ram_reg a v).program = vm.program := rfl

theorem set_ram_reg_step_counter (vm : VMEmulator) (a : Nat) (v : Int) :
    (vm.set_ram_reg a v).step_counter = vm.step_counter := rfl

/-- `restore_register` (pop the global stack into a reserved RAM
register) on a well-formed state, as recorded facts. -/
theorem restore_register_fact (vm : VMEmulator) (addr : Nat) (haddr : addr ≠ SP)
    (h1 : 256 < vm.ram SP) (h2 : vm.ram SP ≤ RAM_SIZE) :
    ∃ vm', vm.restore_register addr = .ok vm' ∧
      vm'.program = vm.program ∧
      vm'.step_counter = vm.step_counter ∧
      vm'.call_stack = vm.call_stack ∧
      vm'.ram SP = vm.ram SP - 1 ∧
      vm'.ram addr = vm.ram (vm.ram SP - 1).toNat ∧
      (∀ a : Nat, a ≠ SP → a ≠ addr → vm'.ram a = vm.ram a) := by
  obtain ⟨vm1, e1, hp, hs, hc, hsp, hf⟩ := pop_global_stack_fact vm h1 h2
  refine ⟨vm1.set_ram_reg addr (vm.ram (vm.ram SP - 1).toNat), ?_, ?_, ?_, ?_, ?_, ?_, ?_⟩
  · simp only [restore_register]
    rw [e1]
    simp only [Outcome.bind_ok]
  · rw [set_ram_reg_program] ; exact hp
  · rw [set_ram_reg_step_counter] ; exact hs
  · rw [set_ram_reg_call_stack] ; exact hc
  · rw [set_ram_reg_ram_other _ _ _ _ (by omega)] ; exact hsp
  · exact set_ram_reg_ram_same _ _ _
  · intro a ha1 ha2
    rw [set_ram_reg_ram_other _ _ _ _ (by omega)]
    exact hf a ha1

/-- `pop_stack` on a well-formed state with a value owned by the top
frame, as recorded facts. -/
theorem pop_stack_fact (vm : VMEmulator) (f : VMStackFrame) (rest : List VMStackFrame)
    (hcs : vm.call_stack = f :: rest) (hsize : 0 < f.stack_size)
    (h1 : 256 < vm.ram SP) (h2 : vm.ram SP ≤ RAM_SIZE) :
    ∃ vm', vm.pop_stack = .ok (vm.ram (vm.ram SP - 1).toNat, vm') ∧
      vm'.program = vm.program ∧
      vm'.step_counter = vm.step_counter ∧
      vm'.call_stack = { f with stack_size := f.stack_size - 1 } :: rest ∧
      vm'.ram SP = vm.ram SP - 1 ∧
      (∀ a : Nat, a ≠ SP → vm'.ram a = vm.ram a) := by
  have hSP : SP = 0 := rfl
  have hRS : RAM_SIZE = 24577 := rfl
  refine ⟨_, pop_stack_spec vm f rest hcs hsize h1 h2, rfl, rfl, rfl, ?_, ?_⟩
  · simp only [setRam]
    split_ifs <;> omega
  · intro a ha1
    simp only [setRam]
    split_ifs <;> omega

/-- C2: the calling convention of `exec_call`, itemized: the five pushes
in order (return index, LCL, ARG, THIS, THAT), the new ARG and LCL
bases, and the new frame. -/
theorem exec_call_spec (vm : VMEmulator) (f : VMStackFrame) (rest : List VMStackFrame)
    (F : InCodeFuncRef) (n : Nat)
    (hcs : vm.call_stack = f :: rest)
    (h1 : 256 ≤ vm.ram SP) (h2 : vm.ram SP + 5 ≤ RAM_SIZE)
    (hidx : (f.index : Int) + 1 < 2147483648)
    (hn : (n : Int) ≤ vm.ram SP) :
    ∃ vm', vm.exec_call F n = .ok vm' ∧
      vm'.ram (vm.ram SP).toNat = (f.index : Int) + 1 ∧
      vm'.ram ((vm.ram SP).toNat + 1) = vm.ram LCL ∧
      vm'.ram ((vm.ram SP).toNat + 2) = vm.ram ARG ∧
      vm'.ram ((vm.ram SP).toNat + 3) = vm.ram THIS ∧
      vm'.ram ((vm.ram SP).toNat + 4) = vm.ram THAT ∧
      vm'.ram SP = vm.ram SP + 5 ∧
      vm'.ram ARG = vm'.ram SP - 5 - (n : Int) ∧
      vm'.ram LCL = vm'.ram SP ∧
      vm'.call_stack =
        VMStackFrame.new F n :: { f with stack_size := f.stack_size + 5 } :: rest ∧
      vm'.program = vm.program ∧ vm'.step_counter = vm.step_counter ∧
      (∀ a : Nat, 4 < a → a < (vm.ram SP).toNat → vm'.ram a = vm.ram a) := by
  have hSP : SP = 0 := rfl
  have hLCL : LCL = 1 := rfl
  have hARG : ARG = 2 := rfl
  have hTHIS : THIS = 3 := rfl
  have hTHAT : THAT = 4 := rfl
  rw [RAM_SIZE_eq] at h2
  have hw0 : wrap32 (Int.ofNat (f.index + 1)) = (f.index : Int) + 1 := by
    rw [show (Int.ofNat (f.index + 1)) = (f.index : Int) + 1 from by
      simp only [Int.ofNat_eq_natCast] ; push_cast ; ring]
    exact wrap32_eq (by omega) hidx
  simp only [exec_call, hcs, hw0]
  obtain ⟨vm1, e1, hp1, hs1, hc1, hsp1, hv1, hf1⟩ :=
    push_stack_fact vm f rest ((f.index : Int) + 1) hcs h1 (by rw [RAM_SIZE_eq] ; omega)
  rw [e1]
  simp only [Outcome.bind_ok]
  have ht1 : (vm1.ram SP).toNat = (vm.ram SP).toNat + 1 := by rw [hsp1] ; omega
  have hl1 : vm1.ram LCL = vm.ram LCL := hf1 LCL (by omega) (by omega)
  rw [hl1]
  obtain ⟨vm2, e2, hp2, hs2, hc2, hsp2, hv2, hf2⟩ :=
    push_stack_fact vm1 ⟨f.stack_size + 1, f.function, f.index, f.num_args⟩ rest
      (vm.ram LCL) (by rw [hc1]) (by rw [hsp1] ; omega) (by rw [hsp1, RAM_SIZE_eq] ; omega)
  rw [e2]
  simp only [Outcome.bind_ok]
  have hc2' : vm2.call_stack = ⟨f.stack_size + 2, f.function, f.index, f.num_args⟩ :: rest := by
    rw [hc2]
  have ht2 : (vm2.ram SP).toNat = (vm.ram SP).toNat + 2 := by rw [hsp2, hsp1] ; omega
  have ha2 : vm2.ram ARG = vm.ram ARG := by
    rw [hf2 ARG (by omega) (by omega), hf1 ARG (by omega) (by omega)]
  rw [ha2]
  obtain ⟨vm3, e3, hp3, hs3, hc3, hsp3, hv3, hf3⟩ :=
    push_stack_fact vm2 ⟨f.stack_size + 2, f.function, f.index, f.num_args⟩ rest
      (vm.ram ARG) hc2' (by rw [hsp2, hsp1] ; omega)
      (by rw [hsp2, hsp1, RAM_SIZE_eq] ; omega)
  rw [e3]
  simp only [Outcome.bind_ok]
  have hc3' : vm3.call_stack = ⟨f.stack_size + 3, f.function, f.index, f.num_args⟩ :: rest := by
    rw [hc3]
  have ht3 : (vm3.ram SP).toNat = (vm.ram SP).toNat + 3 := by rw [hsp3, hsp2, hsp1] ; omega
  have hb3 : vm3.ram THIS = vm.ram THIS := by
    rw [hf3 THIS (by omega) (by omega), hf2 THIS (by omega) (by omega),
      hf1 THIS (by omega) (by omega)]
  rw [hb3]
  obtain ⟨vm4, e4, hp4, hs4, hc4, hsp4, hv4, hf4⟩ :=
    push_stack_fact vm3 ⟨f.stack_size + 3, f.function, f.index, f.num_args⟩ rest
      (vm.ram THIS) hc3' (by rw [hsp3, hsp2, hsp1] ; omega)
      (by rw [hsp3, hsp2, hsp1, RAM_SIZE_eq] ; omega)
  rw [e4]
  simp only [Outcome.bind_ok]
  have hc4' : vm4.call_stack = ⟨f.stack_size + 4, f.function, f.index, f.num_args⟩ :: rest := by
    rw [hc4]
  have ht4 : (vm4.ram SP).toNat = (vm.ram SP).toNat + 4 := by
    rw [hsp4, hsp3, hsp2, hsp1] ; omega
  have hb4 : vm4.ram THAT = vm.ram THAT := by
    rw [hf4 THAT (by omega) (by omega), hf3 THAT (by omega) (by omega),
      hf2 THAT (by omega) (by omega), hf1 THAT (by omega) (by omega)]
  rw [hb4]
  obtain ⟨vm5, e5, hp5, hs5, hc5, hsp5, hv5, hf5⟩ :=
    push_stack_fact vm4 ⟨f.stack_size + 4, f.function, f.index, f.num_args⟩ rest
      (vm.ram THAT) hc4' (by rw [hsp4, hsp3, hsp2, hsp1] ; omega)
      (by rw [hsp4, hsp3, hsp2, hsp1, RAM_SIZE_eq] ; omega)
  rw [e5]
  simp only [Outcome.bind_ok]
  have hc5' : vm5.call_stack = ⟨f.stack_size + 5, f.function, f.index, f.num_args⟩ :: rest := by
    rw [hc5]
  have hsp5' : vm5.ram SP = vm.ram SP + 5 := by rw [hsp5, hsp4, hsp3, hsp2, hsp1] ; ring
  have hw1 : wrap32 (vm5.ram SP - 5 - (n : Int)) = vm.ram SP - (n : Int) := by
    rw [hsp5', show vm.ram SP + 5 - 5 - (n : Int) = vm.ram SP - (n : Int) from by ring]
    exact wrap32_eq (by omega) (by omega)
  rw [hw1]
  set r6 : Nat → Int := setRam vm5.ram ARG (vm.ram SP - (n : Int)) with hr6
  set r7 : Nat → Int := setRam r6 LCL (r6 SP) with hr7
  have cX : r6 SP = vm.ram SP + 5 := by
    rw [hr6, setRam_other _ _ _ _ (by omega)] ; exact hsp5'
  have cSP : r7 SP = vm.ram SP + 5 := by
    rw [hr7, setRam_other _ _ _ _ (by omega)] ; exact cX
  have cLCL : r7 LCL = vm.ram SP + 5 := by
    rw [hr7, setRam_same] ; exact cX
  have cARG : r7 ARG = vm.ram SP - (n : Int) := by
    rw [hr7, setRam_other _ _ _ _ (by omega), hr6, setRam_same]
  have cOther : ∀ a : Nat, a ≠ SP → a ≠ LCL → a ≠ ARG → r7 a = vm5.ram a := by
    intro a hA hB hC
    rw [hr7, setRam_other _ _ _ _ (by omega), hr6, setRam_other _ _ _ _ (by omega)]
  have cT0 : r7 (vm.ram SP).toNat = (f.index : Int) + 1 := by
    rw [cOther _ (by omega) (by omega) (by omega)]
    rw [hf5 _ (by omega) (by omega), hf4 _ (by omega) (by omega),
      hf3 _ (by omega) (by omega), hf2 _ (by omega) (by omega)]
    exact hv1
  have cT1 : r7 ((vm.ram SP).toNat + 1) = vm.ram LCL := by
    rw [cOther _ (by omega) (by omega) (by omega)]
    rw [hf5 _ (by omega) (by omega), hf4 _ (by omega) (by omega),
      hf3 _ (by omega) (by omega), ← ht1]
    exact hv2
  have cT2 : r7 ((vm.ram SP).toNat + 2) = vm.ram ARG := by
    rw [cOther _ (by omega) (by omega) (by omega)]
    rw [hf5 _ (by omega) (by omega), hf4 _ (by omega) (by omega), ← ht2]
    exact hv3
  have cT3 : r7 ((vm.ram SP).toNat + 3) = vm.ram THIS := by
    rw [cOther _ (by omega) (by omega) (by omega)]
    rw [hf5 _ (by omega) (by omega), ← ht3]
    exact hv4
  have cT4 : r7 ((vm.ram SP).toNat + 4) = vm.ram THAT := by
    rw [cOther _ (by omega) (by omega) (by omega), ← ht4]
    exact hv5
  have cFrame : ∀ a : Nat, 4 < a → a < (vm.ram SP).toNat → r7 a = vm.ram a := by
    intro a hA hB
    rw [cOther _ (by omega) (by omega) (by omega)]
    rw [hf5 _ (by omega) (by omega), hf4 _ (by omega) (by omega),
      hf3 _ (by omega) (by omega), hf2 _ (by omega) (by omega),
      hf1 _ (by omega) (by omega)]
  refine ⟨_, rfl, cT0, cT1, cT2, cT3, cT4, cSP, ?_, ?_, ?_, ?_, ?_, cFrame⟩
  · show r7 ARG = r7 SP - 5 - (n : Int)
    rw [cARG, cSP] ; ring
  · show r7 LCL = r7 SP
    rw [cLCL, cSP]
  · show VMStackFrame.new F n :: vm5.call_stack = _
    rw [hc5']
  · show vm5.program = vm.program
    rw [hp5, hp4, hp3, hp2, hp1]
  · show vm5.step_counter = vm.step_counter
    rw [hs5, hs4, hs3, hs2, hs1]

/-- C3: the return convention of `exec_return` for a non-root frame with
a non-empty operand stack: SP ends at ARG + 1, the popped return value
lands in the slot at the old ARG, the caller's saved THAT/THIS/ARG/LCL
are restored from below the old LCL, the frame is popped and the caller
resumes at the command after the call. -/
theorem exec_return_spec (vm : VMEmulator) (f caller : VMStackFrame)
    (rest2 : List VMStackFrame)
    (hcs : vm.call_stack = f :: caller :: rest2)
    (hsz : 0 < f.stack_size)
    (h1 : 256 < vm.ram SP) (h2 : vm.ram SP ≤ RAM_SIZE)
    (hl1 : 261 ≤ vm.ram LCL) (hl2 : vm.ram LCL ≤ RAM_SIZE)
    (ha1 : 256 ≤ vm.ram ARG) (ha2 : vm.ram ARG < RAM_SIZE) :
    ∃ vm', vm.exec_return = .ok vm' ∧
      vm'.ram SP = vm.ram ARG + 1 ∧
      vm'.ram (vm.ram ARG).toNat = vm.ram (vm.ram SP - 1).toNat ∧
      vm'.ram THAT = vm.ram (vm.ram LCL - 1).toNat ∧
      vm'.ram THIS = vm.ram (vm.ram LCL - 2).toNat ∧
      vm'.ram ARG = vm.ram (vm.ram LCL - 3).toNat ∧
      vm'.ram LCL = vm.ram (vm.ram LCL - 4).toNat ∧
      vm'.call_stack = { caller with index := caller.index + 1 } :: rest2 ∧
      vm'.program = vm.program ∧ vm'.step_counter = vm.step_counter := by
  have hSP : SP = 0 := rfl
  have hLCL : LCL = 1 := rfl
  have hARG : ARG = 2 := rfl
  have hTHIS : THIS = 3 := rfl
  have hTHAT : THAT = 4 := rfl
  simp only [exec_return]
  obtain ⟨vmA, eA, hpA, hsA, hcA, hspA, hfA⟩ :=
    pop_stack_fact vm f (caller :: rest2) hcs hsz h1 h2
  rw [eA]
  simp only [Outcome.bind_ok]
  have haA : vmA.ram ARG = vm.ram ARG := hfA ARG (by omega)
  have hlA : vmA.ram LCL = vm.ram LCL := hfA LCL (by omega)
  rw [haA, hlA]
  have hW1sp : (vmA.set_ram_reg SP (vm.ram LCL)).ram SP = vm.ram LCL :=
    set_ram_reg_ram_same _ _ _
  obtain ⟨vmB, eB, hpB, hsB, hcB, hspB, hvB, hfB⟩ :=
    restore_register_fact (vmA.set_ram_reg SP (vm.ram LCL)) THAT (by omega)
      (by rw [hW1sp] ; omega) (by rw [hW1sp] ; exact hl2)
  rw [eB]
  simp only [Outcome.bind_ok]
  have hspB' : vmB.ram SP = vm.ram LCL - 1 := by rw [hspB, hW1sp]
  have hvB' : vmB.ram THAT = vm.ram (vm.ram LCL - 1).toNat := by
    rw [hvB, hW1sp, set_ram_reg_ram_other _ _ _ _ (by omega)]
    exact hfA _ (by omega)
  obtain ⟨vmC, eC, hpC, hsC, hcC, hspC, hvC, hfC⟩ :=
    restore_register_fact vmB THIS (by omega) (by rw [hspB'] ; omega)
      (by rw [hspB'] ; omega)
  rw [eC]
  simp only [Outcome.bind_ok]
  have hspC' : vmC.ram SP = vm.ram LCL - 2 := by rw [hspC, hspB'] ; ring
  have hvC' : vmC.ram THIS = vm.ram (vm.ram LCL - 2).toNat := by
    rw [hvC, hspB', show (vm.ram LCL - 1 - 1).toNat = (vm.ram LCL - 2).toNat from by omega]
    rw [hfB _ (by omega) (by omega), set_ram_reg_ram_other _ _ _ _ (by omega)]
    exact hfA _ (by omega)
  obtain ⟨vmD, eD, hpD, hsD, hcD, hspD, hvD, hfD⟩ :=
    restore_register_fact vmC ARG (by omega) (by rw [hspC'] ; omega)
      (by rw [hspC'] ; omega)
  rw [eD]
  simp only [Outcome.bind_ok]
  have hspD' : vmD.ram SP = vm.ram LCL - 3 := by rw [hspD, hspC'] ; ring
  have hvD' : vmD.ram ARG = vm.ram (vm.ram LCL - 3).toNat := by
    rw [hvD, hspC', show (vm.ram LCL - 2 - 1).toNat = (vm.ram LCL - 3).toNat from by omega]
    rw [hfC _ (by omega) (by omega), hfB _ (by omega) (by omega),
      set_ram_reg_ram_other _ _ _ _ (by omega)]
    exact hfA _ (by omega)
  obtain ⟨vmE, eE, hpE, hsE, hcE, hspE, hvE, hfE⟩ :=
    restore_register_fact vmD LCL (by omega) (by rw [hspD'] ; omega)
      (by rw [hspD'] ; omega)
  rw [eE]
  simp only [Outcome.bind_ok]
  have hspE' : vmE.ram SP = vm.ram LCL - 4 := by rw [hspE, hspD'] ; ring
  have hvE' : vmE.ram LCL = vm.ram (vm.ram LCL - 4).toNat := by
    rw [hvE, hspD', show (vm.ram LCL - 3 - 1).toNat = (vm.ram LCL - 4).toNat from by omega]
    rw [hfD _ (by omega) (by omega), hfC _ (by omega) (by omega),
      hfB _ (by omega) (by omega), set_ram_reg_ram_other _ _ _ _ (by omega)]
    exact hfA _ (by omega)
  obtain ⟨vmF, eF, hpF, hsF, hcF, hspF, hfF⟩ :=
    pop_global_stack_fact vmE (by rw [hspE'] ; omega) (by rw [hspE'] ; omega)
  rw [eF]
  simp only [Outcome.bind_ok]
  have hW6sp : (vmF.set_ram_reg SP (vm.ram ARG)).ram SP = vm.ram ARG :=
    set_ram_reg_ram_same _ _ _
  obtain ⟨vmP, eP, hpP, hsP, hcP, hspP, hvP, hfP⟩ :=
    push_global_stack_fact (vmF.set_ram_reg SP (vm.ram ARG)) (vm.ram (vm.ram SP - 1).toNat)
      (by rw [hW6sp] ; omega) (by rw [hW6sp] ; exact ha2)
  rw [eP]
  simp only [Outcome.bind_ok]
  have hfinalcs : vmP.call_stack =
      { f with stack_size := f.stack_size - 1 } :: caller :: rest2 := by
    rw [hcP, set_ram_reg_call_stack, hcF, hcE, hcD, hcC, hcB, set_ram_reg_call_stack]
    exact hcA
  simp only [hfinalcs]
  refine ⟨_, rfl, ?_, ?_, ?_, ?_, ?_, ?_, rfl, ?_, ?_⟩
  · show vmP.ram SP = _
    rw [hspP, hW6sp]
  · show vmP.ram (vm.ram ARG).toNat = _
    have h := hvP
    rw [hW6sp] at h
    exact h
  · show vmP.ram THAT = _
    rw [hfP THAT (by omega) (by rw [hW6sp] ; omega),
      set_ram_reg_ram_other _ _ _ _ (by omega), hfF _ (by omega),
      hfE _ (by omega) (by omega), hfD _ (by omega) (by omega),
      hfC _ (by omega) (by omega)]
    exact hvB'
  · show vmP.ram THIS = _
    rw [hfP THIS (by omega) (by rw [hW6sp] ; omega),
      set_ram_reg_ram_other _ _ _ _ (by omega), hfF _ (by omega),
      hfE _ (by omega) (by omega), hfD _ (by omega) (by omega)]
    exact hvC'
  · show vmP.ram ARG = _
    rw [hfP ARG (by omega) (by rw [hW6sp] ; omega),
      set_ram_reg_ram_other _ _ _ _ (by omega), hfF _ (by omega),
      hfE _ (by omega) (by omega)]
    exact hvD'
  · show vmP.ram LCL = _
    rw [hfP LCL (by omega) (by rw [hW6sp] ; omega),
      set_ram_reg_ram_other _ _ _ _ (by omega), hfF _ (by omega)]
    exact hvE'
  · show vmP.program = _
    rw [hpP, set_ram_reg_program, hpF, hpE, hpD, hpC, hpB, set_ram_reg_program]
    exact hpA
  · show vmP.step_counter = _
    rw [hsP, set_ram_reg_step_counter, hsF, hsE, hsD, hsC, hsB, set_ram_reg_step_counter]
    exact hsA

theorem get_segment_bounds_ne_error (vm : VMEmulator) (s : Segment) (m : String) :
    vm.get_segment_bounds s ≠ .error m := by
  cases s <;> simp only [get_segment_bounds]
  case Constant => simp
  case Argument =>
    cases vm.call_stack with
    | nil => simp
    | cons f rest => split_ifs <;> simp
  case Local =>
    cases vm.call_stack with
    | nil => simp
    | cons f rest =>
      rcases h : vm.program.get_vmfunction? f.function with _ | fn <;> simp [h]
  case Static =>
    cases vm.call_stack with
    | nil => simp
    | cons f rest =>
      rcases h : vm.program.get_file? f.function with _ | file <;> simp [h]
  case This => simp
  case That => simp
  case Pointer => simp
  case Temp => simp

/-- Segment bounds only depend on the program, the call stack, and the
four base registers. -/
theorem get_segment_bounds_congr (vmA vmB : VMEmulator)
    (hprog : vmA.program = vmB.program) (hcs : vmA.call_stack = vmB.call_stack)
    (hL : vmA.ram LCL = vmB.ram LCL) (hA : vmA.ram ARG = vmB.ram ARG)
    (hT : vmA.ram THIS = vmB.ram THIS) (hH : vmA.ram THAT = vmB.ram THAT)
    (s : Segment) :
    vmA.get_segment_bounds s = vmB.get_segment_bounds s := by
  cases s <;> simp only [get_segment_bounds, hprog, hcs, hL, hA, hT, hH]

/-- A `read_source` is a value or a panic, never an `error`. -/
theorem read_source_cases (vm : VMEmulator) (s : Segment) (i : Nat) :
    (∃ v, vm.read_source s i = .ok v) ∨ (∃ m, vm.read_source s i = .panic m) := by
  have hseg : ∀ s0 : Segment,
      (∃ v, vm.seg_read s0 i = .ok v) ∨ (∃ m, vm.seg_read s0 i = .panic m) := by
    intro s0
    unfold seg_read
    rcases hb : vm.get_segment_bounds s0 with p | m | m
    · simp only [Outcome.bind_ok]
      obtain ⟨a, b⟩ := p
      split_ifs <;> first | exact .inl ⟨_, rfl⟩ | exact .inr ⟨_, rfl⟩
    · exact absurd hb (get_segment_bounds_ne_error _ _ _)
    · simp only [Outcome.bind_panic]
      exact .inr ⟨m, rfl⟩
  unfold read_source
  cases s
  case Constant => exact .inl ⟨_, rfl⟩
  all_goals exact hseg _

/-- Writing the same value through the same segment reference in two
states that agree on the program, call stack and base registers either
panics identically or writes the same RAM cell in both. -/
theorem seg_write_congr (vmA vmB : VMEmulator) (s : Segment) (i : Nat) (v : Int)
    (hprog : vmA.program = vmB.program) (hcs : vmA.call_stack = vmB.call_stack)
    (hL : vmA.ram LCL = vmB.ram LCL) (hA : vmA.ram ARG = vmB.ram ARG)
    (hT : vmA.ram THIS = vmB.ram THIS) (hH : vmA.ram THAT = vmB.ram THAT) :
    (∃ m, vmA.seg_write s i v = .panic m ∧ vmB.seg_write s i v = .panic m) ∨
    (∃ w : Nat, vmA.seg_write s i v = .ok { vmA with ram := setRam vmA.ram w v } ∧
                vmB.seg_write s i v = .ok { vmB with ram := setRam vmB.ram w v }) := by
  have hb := get_segment_bounds_congr vmA vmB hprog hcs hL hA hT hH s
  unfold seg_write
  rcases hB : vmB.get_segment_bounds s with p | m | m
  · rw [hb, hB]
    simp only [Outcome.bind_ok]
    obtain ⟨a, b⟩ := p
    split_ifs
    · exact .inr ⟨a + i, rfl, rfl⟩
    · exact .inl ⟨_, rfl, rfl⟩
    · exact .inl ⟨_, rfl, rfl⟩
  · exact absurd hB (get_segment_bounds_ne_error _ _ _)
  · rw [hb, hB]
    simp only [Outcome.bind_panic]
    exact .inl ⟨m, rfl, rfl⟩

/-- C1 (amended): executing the fused `CopySeg` agrees with the
unfused `Push ; Pop` pair up to the scratch RAM cell at the entry stack
pointer (which the unfused pair overwrites with the copied value), the
`num_statics` tally counts both endpoints of the fused pair exactly as
it counts the unfused pair, and the optimizer fuses exactly adjacent
`Push ; Pop` pairs. -/
theorem copy_seg_fusion_spec :
    (∀ (vm : VMEmulator) (f : VMStackFrame) (rest : List VMStackFrame)
       (s1 : Segment) (i1 : Nat) (s2 : Segment) (i2 : Nat),
      vm.call_stack = f :: rest → 256 ≤ vm.ram SP → vm.ram SP < RAM_SIZE →
      ((∃ m, (vm.exec_push s1 i1 >>= fun vm1 => vm1.exec_pop s2 i2) = .panic m ∧
             vm.exec_copy_seg s1 i1 s2 i2 = .panic m) ∨
       (∃ vmL vmR, (vm.exec_push s1 i1 >>= fun vm1 => vm1.exec_pop s2 i2) = .ok vmL ∧
             vm.exec_copy_seg s1 i1 s2 i2 = .ok vmR ∧
             vmL.call_stack = vmR.call_stack ∧ vmL.program = vmR.program ∧
             vmL.step_counter = vmR.step_counter ∧ vmL.ram SP = vmR.ram SP ∧
             (∀ a : Nat, a ≠ (vm.ram SP).toNat → vmL.ram a = vmR.ram a)))) ∧
    (∀ (ft : FunctionTable) (lt : LabelTable) (s1 : Segment) (i1 : Nat)
       (s2 : Segment) (i2 : Nat) (ns : Nat) (ws : List String),
      ∃ ns',
        convert_tokens ft lt [OptimizedToken.CopySeg s1 i1 s2 i2] ns ws =
          .ok ([Command.CopySeg s1 i1 s2 i2], ns', ws) ∧
        convert_tokens ft lt
          [OptimizedToken.Base (Token.Push s1 i1), OptimizedToken.Base (Token.Pop s2 i2)]
          ns ws = .ok ([Command.Push s1 i1, Command.Pop s2 i2], ns', ws)) ∧
    (∀ (s1 : Segment) (i1 : Nat) (s2 : Segment) (i2 : Nat) (rest : List Token),
      get_optimized_tokens (Token.Push s1 i1 :: Token.Pop s2 i2 :: rest) =
        OptimizedToken.CopySeg s1 i1 s2 i2 :: get_optimized_tokens rest) := by
  refine ⟨?_, ?_, ?_⟩
  · intro vm f rest s1 i1 s2 i2 hcs h1 h2
    have hSP : SP = 0 := rfl
    have hLCL : LCL = 1 := rfl
    have hARG : ARG = 2 := rfl
    have hTHIS : THIS = 3 := rfl
    have hTHAT : THAT = 4 := rfl
    have hRS : RAM_SIZE = 24577 := rfl
    simp only [exec_push, exec_copy_seg, exec_pop]
    rcases read_source_cases vm s1 i1 with ⟨v, hv⟩ | ⟨m, hm⟩
    · rw [hv]
      simp only [Outcome.bind_ok]
      obtain ⟨vmA, eA, hpA, hsA, hcA, hspA, hvA, hfA⟩ := push_stack_fact vm f rest v hcs h1 h2
      rw [eA]
      simp only [Outcome.bind_ok]
      have hcA' : vmA.call_stack =
          ⟨f.stack_size + 1, f.function, f.index, f.num_args⟩ :: rest := by rw [hcA]
      obtain ⟨vmB, eB, hpB, hsB, hcB, hspB, hfB⟩ :=
        pop_stack_fact vmA ⟨f.stack_size + 1, f.function, f.index, f.num_args⟩ rest hcA'
          (by show 0 < f.stack_size + 1 ; omega) (by rw [hspA] ; omega)
          (by rw [hspA] ; omega)
      have hval : vmA.ram (vmA.ram SP - 1).toNat = v := by
        rw [hspA, show (vm.ram SP + 1 - 1).toNat = (vm.ram SP).toNat from by omega]
        exact hvA
      rw [hval] at eB
      rw [eB]
      simp only [Outcome.mapError_ok, Outcome.bind_ok]
      have hspB' : vmB.ram SP = vm.ram SP := by rw [hspB, hspA] ; ring
      have hcB' : vmB.call_stack = vm.call_stack := by
        rw [hcB, hcs]
        exact congrArg (· :: rest) rfl
      have hother : ∀ a : Nat, a ≠ (vm.ram SP).toNat → vmB.ram a = vm.ram a := by
        intro a ha
        by_cases hsp0 : a = SP
        · rw [hsp0, hspB']
        · rw [hfB a hsp0, hfA a hsp0 ha]
      have hL' : vmB.ram LCL = vm.ram LCL := hother LCL (by omega)
      have hA' : vmB.ram ARG = vm.ram ARG := hother ARG (by omega)
      have hT' : vmB.ram THIS = vm.ram THIS := hother THIS (by omega)
      have hH' : vmB.ram THAT = vm.ram THAT := hother THAT (by omega)
      have hP' : vmB.program = vm.program := by rw [hpB, hpA]
      have hS' : vmB.step_counter = vm.step_counter := by rw [hsB, hsA]
      rcases seg_write_congr vmB vm s2 i2 v hP' hcB' hL' hA' hT' hH' with
        ⟨m, hwa, hwb⟩ | ⟨w, hwa, hwb⟩
      · rw [hwa, hwb]
        exact .inl ⟨m, rfl, rfl⟩
      · rw [hwa, hwb]
        refine .inr ⟨_, _, rfl, rfl, hcB', hP', hS', ?_, ?_⟩
        · show setRam vmB.ram w v SP = setRam vm.ram w v SP
          by_cases hw : SP = w
          · rw [hw, setRam_same, setRam_same]
          · rw [setRam_other _ _ _ _ hw, setRam_other _ _ _ _ hw]
            exact hspB'
        · intro a ha
          show setRam vmB.ram w v a = setRam vm.ram w v a
          by_cases hw : a = w
          · rw [hw, setRam_same, setRam_same]
          · rw [setRam_other _ _ _ _ hw, setRam_other _ _ _ _ hw]
            exact hother a ha
    · rw [hm]
      simp only [Outcome.bind_panic]
      exact .inl ⟨m, rfl, rfl⟩
  · intro ft lt s1 i1 s2 i2 ns ws
    exact ⟨_, rfl, rfl⟩
  · intro s1 i1 s2 i2 rest
    rfl

/-- C1 counterexample to the claim as stated: fusing `push constant 10 ;
pop temp 0` does not leave RAM identical to the unfused pair — the
unfused pair also writes 10 into the scratch cell at the entry SP
(address 260 here), the fused command does not. -/
theorem copy_seg_fusion_counterexample :
    ∃ vmL vmR,
      (vmW.exec_push Segment.Constant 10 >>= fun vm1 => vm1.exec_pop Segment.Temp 0) =
        .ok vmL ∧
      vmW.exec_copy_seg Segment.Constant 10 Segment.Temp 0 = .ok vmR ∧
      vmL.ram 5 = 10 ∧ vmR.ram 5 = 10 ∧
      vmL.ram 260 = 10 ∧ vmR.ram 260 = 0 ∧ ¬ vmL.ram 260 = vmR.ram 260 := by
  refine ⟨_, _, rfl, rfl, by decide, by decide, by decide, by decide, by decide⟩

/-- C1 witness: the amended fusion equivalence at the concrete state
`vmW` for `push constant 10 ; pop temp 0`. -/
theorem copy_seg_fusion_spec_witness :
    vmW.call_stack = frameW :: [] ∧ 256 ≤ vmW.ram SP ∧ vmW.ram SP < RAM_SIZE ∧
    ((∃ m, (vmW.exec_push Segment.Constant 10 >>= fun vm1 =>
              vm1.exec_pop Segment.Temp 0) = .panic m ∧
           vmW.exec_copy_seg Segment.Constant 10 Segment.Temp 0 = .panic m) ∨
     (∃ vmL vmR, (vmW.exec_push Segment.Constant 10 >>= fun vm1 =>
              vm1.exec_pop Segment.Temp 0) = .ok vmL ∧
           vmW.exec_copy_seg Segment.Constant 10 Segment.Temp 0 = .ok vmR ∧
           vmL.call_stack = vmR.call_stack ∧ vmL.program = vmR.program ∧
           vmL.step_counter = vmR.step_counter ∧ vmL.ram SP = vmR.ram SP ∧
           (∀ a : Nat, a ≠ (vmW.ram SP).toNat → vmL.ram a = vmR.ram a))) :=
  ⟨rfl, by decide, by decide,
    copy_seg_fusion_spec.1 vmW frameW [] Segment.Constant 10 Segment.Temp 0 rfl
      (by decide) (by decide)⟩

/-- C4 (amended): a pop executed with the current frame's operand stack
empty makes `step` return a descriptive error value, but an out-of-range
segment index and an unknown intrinsic id abort with a panic (the Rust
code's slice indexing and `todo!` panic), not an error value. -/
theorem step_totality_spec :
    (∀ (vm : VMEmulator) (f : VMStackFrame) (rest : List VMStackFrame) (s : Segment) (i : Nat),
      vm.call_stack = f :: rest → f.stack_size = 0 →
      vm.get_command f.function f.index = .ok (Command.Pop s i) →
      vm.step = .error "failed step: exec_pop failed: local stack is empty") ∧
    (∀ (vm : VMEmulator) (id n : Nat), 2 ≤ id →
      vm.exec_internal id n = .panic "Unknown internal function" ∧
      ∀ m, vm.exec_internal id n ≠ .error m) ∧
    (∀ (vm : VMEmulator) (i : Nat) (v : Int), 8 ≤ i →
      vm.seg_write Segment.Temp i v = .panic "index out of bounds" ∧
      ∀ m, vm.seg_write Segment.Temp i v ≠ .error m) := by
  refine ⟨?_, ?_, ?_⟩
  · intro vm f rest s i hcs hss hcmd
    have hcmd' :
        ({ program := vm.program, ram := vm.ram, call_stack := f :: rest,
           step_counter := vm.step_counter + 1 } : VMEmulator).get_command
          f.function f.index = .ok (Command.Pop s i) := hcmd
    have hexec :
        ({ program := vm.program, ram := vm.ram, call_stack := f :: rest,
           step_counter := vm.step_counter + 1 } : VMEmulator).exec_pop s i =
          .error "exec_pop failed: local stack is empty" := by
      simp only [exec_pop, pop_stack]
      simp [hss]
    simp only [step]
    rw [hcs]
    simp only [hcmd', Outcome.bind_ok, hexec, Outcome.mapError_error, Outcome.bind_error]
    rfl
  · intro vm id n hid
    obtain ⟨k, rfl⟩ : ∃ k, id = k + 2 := ⟨id - 2, by omega⟩
    exact ⟨rfl, fun m h => Outcome.noConfusion h⟩
  · intro vm i v hi
    have h : vm.seg_write Segment.Temp i v = .panic "index out of bounds" := by
      simp only [seg_write, get_segment_bounds, Outcome.bind_ok]
      rw [if_pos (by decide), if_neg (by omega)]
    refine ⟨h, fun m hm => ?_⟩
    rw [h] at hm
    exact Outcome.noConfusion hm

/-- C4 counterexample to the claim as stated: at `vmC4`, about to execute
the out-of-range `push temp 8`, `step` panics (models the Rust slice
index panic) and returns no error value. -/
theorem step_totality_counterexample :
    vmC4.step = Outcome.panic "index out of bounds" ∧
    ∀ m, vmC4.step ≠ Outcome.error m := by
  refine ⟨rfl, ?_⟩
  intro m h
  rw [show vmC4.step = Outcome.panic "index out of bounds" from rfl] at h
  exact Outcome.noConfusion h

/-- C4 witness: the empty-pop error at `vmC4pop`, the unknown-intrinsic
panic at id 5, and the out-of-range `temp` write panic at index 9. -/
theorem step_totality_spec_witness :
    (vmC4pop.call_stack = (⟨0, ⟨0, 0⟩, 0, 0⟩ : VMStackFrame) :: [] ∧
     (⟨0, ⟨0, 0⟩, 0, 0⟩ : VMStackFrame).stack_size = 0 ∧
     vmC4pop.get_command ⟨0, 0⟩ 0 = .ok (Command.Pop Segment.Temp 0) ∧
     vmC4pop.step = .error "failed step: exec_pop failed: local stack is empty") ∧
    (2 ≤ 5 ∧ vmW.exec_internal 5 2 = .panic "Unknown internal function") ∧
    (8 ≤ 9 ∧ vmW.seg_write Segment.Temp 9 7 = .panic "index out of bounds") := by
  refine ⟨⟨rfl, rfl, rfl, ?_⟩, ⟨by decide, ?_⟩, ⟨by decide, ?_⟩⟩
  · exact step_totality_spec.1 vmC4pop ⟨0, ⟨0, 0⟩, 0, 0⟩ [] Segment.Temp 0 rfl rfl rfl
  · exact (step_totality_spec.2.1 vmW 5 2 (by decide)).1
  · exact (step_totality_spec.2.2 vmW 9 7 (by decide)).1

/-- C5: a call to a name absent from the function table converts
non-fatally into the sentinel `FunctionRef::new(1000, 1)` with a warning
appended, while a `goto`/`if-goto` to an unknown label is a fatal
conversion error; the sentinel only fails the emulator when its function
is actually entered (command fetch from file 1000 panics); concretely, a
program with a dead unresolved call still loads (with the warning)
whereas a program with an unknown branch label fails to load. -/
theorem unresolved_call_warning_spec :
    (∀ (ft : FunctionTable) (lt : LabelTable) (name : String) (n : Nat)
       (rest : List OptimizedToken) (ns : Nat) (ws : List String)
       (cmds : List Command) (ns' : Nat) (ws' : List String),
      ft.get_by_left name = none →
      convert_tokens ft lt rest ns (ws ++ [missing_function_warning name]) =
        .ok (cmds, ns', ws') →
      convert_tokens ft lt (OptimizedToken.Base (Token.Call name n) :: rest) ns ws =
        .ok (Command.Call (FunctionRef.new 1000 1) n :: cmds, ns', ws')) ∧
    (∀ (ft : FunctionTable) (lt : LabelTable) (label : String)
       (rest : List OptimizedToken) (ns : Nat) (ws : List String),
      lt.get label = none →
      convert_tokens ft lt (OptimizedToken.Base (Token.Goto label) :: rest) ns ws =
        .error ("label \"" ++ label ++ "\" does not exist") ∧
      convert_tokens ft lt (OptimizedToken.Base (Token.If label) :: rest) ns ws =
        .error ("label \"" ++ label ++ "\" does not exist")) ∧
    (∀ (vm : VMEmulator) (i : Nat), vm.program.files.length ≤ 1000 →
      vm.get_command ⟨1000, 1⟩ i = .panic "index out of bounds") ∧
    (∃ p, VMProgram.new progC5tokens = .ok p ∧
      p.warnings = [missing_function_warning "Lib.missing"]) ∧
    VMProgram.new progC5bad = .error "label \"NOPE\" does not exist" := by
  refine ⟨?_, ?_, ?_,
    ⟨(match VMProgram.new progC5tokens with
      | Outcome.ok p => p
      | _ => VMProgram.empty), rfl, rfl⟩, rfl⟩
  · intro ft lt name n rest ns ws cmds ns' ws' hname hrest
    simp only [convert_tokens, convert_token]
    rw [hname]
    simp only [Outcome.pure_eq, Outcome.bind_ok]
    rw [hrest]
    simp only [Outcome.bind_ok]
  · intro ft lt label rest ns ws hlabel
    refine ⟨?_, ?_⟩
    · simp only [convert_tokens, convert_token]
      rw [hlabel]
      rfl
    · simp only [convert_tokens, convert_token]
      rw [hlabel]
      rfl
  · intro vm i h
    simp only [VMEmulator.get_command, VMProgram.get_vmfunction?]
    rw [List.get?_eq_none.mpr h]

/-- C5 witness: the non-fatal sentinel conversion, the fatal unknown
label, and the sentinel fetch panic, at concrete inputs. -/
theorem unresolved_call_warning_spec_witness :
    (FunctionTable.get_by_left [] "Sys.foo" = none ∧
     convert_tokens [] [] [] 0 ([] ++ [missing_function_warning "Sys.foo"]) =
       .ok ([], 0, [missing_function_warning "Sys.foo"]) ∧
     convert_tokens [] [] [OptimizedToken.Base (Token.Call "Sys.foo" 0)] 0 [] =
       .ok ([Command.Call (FunctionRef.new 1000 1) 0], 0,
            [missing_function_warning "Sys.foo"])) ∧
    (LabelTable.get [] "L" = none ∧
     convert_tokens [] [] [OptimizedToken.Base (Token.Goto "L")] 0 [] =
       .error ("label \"" ++ "L" ++ "\" does not exist")) ∧
    (vmW.program.files.length ≤ 1000 ∧
     vmW.get_command ⟨1000, 1⟩ 0 = .panic "index out of bounds") := by
  refine ⟨⟨rfl, rfl, ?_⟩, ⟨rfl, ?_⟩, ⟨by decide, ?_⟩⟩
  · exact unresolved_call_warning_spec.1 [] [] "Sys.foo" 0 [] 0 [] [] 0
      [missing_function_warning "Sys.foo"] rfl rfl
  · exact (unresolved_call_warning_spec.2.1 [] [] "L" [] 0 [] rfl).1
  · exact unresolved_call_warning_spec.2.2.1 vmW 0 (by decide)

theorem convert_token_statics (ft : FunctionTable) (lt : LabelTable) (t : OptimizedToken)
    (ns : Nat) (ws : List String) (c : Command) (ns' : Nat) (ws' : List String)
    (h : convert_token ft lt t ns ws = .ok (c, ns', ws')) :
    ns' = max ns (command_static_tally c) := by
  cases t with
  | CopySeg s1 i1 s2 i2 =>
    injection h with h1
    injection h1 with hc h2
    injection h2 with hns hws
    subst hc
    subst hns
    simp only [command_static_tally]
    split_ifs <;> omega
  | Base tk =>
    cases tk with
    | None => exact Outcome.noConfusion h
    | Function a b => exact Outcome.noConfusion h
    | Label l => exact Outcome.noConfusion h
    | Call name nargs =>
      simp only [convert_token] at h
      rcases hl : ft.get_by_left name with _ | fr <;> rw [hl] at h <;>
        injection h with h1 <;> injection h1 with hc h2 <;> injection h2 with hns hws <;>
        subst hc <;> subst hns <;> simp only [command_static_tally] <;> omega
    | If label =>
      simp only [convert_token] at h
      rcases hl : lt.get label with _ | idx <;> rw [hl] at h
      · exact Outcome.noConfusion h
      · injection h with h1
        injection h1 with hc h2
        injection h2 with hns hws
        subst hc
        subst hns
        simp only [command_static_tally]
        omega
    | Goto label =>
      simp only [convert_token] at h
      rcases hl : lt.get label with _ | idx <;> rw [hl] at h
      · exact Outcome.noConfusion h
      · injection h with h1
        injection h1 with hc h2
        injection h2 with hns hws
        subst hc
        subst hns
        simp only [command_static_tally]
        omega
    | Push s i =>
      injection h with h1
      injection h1 with hc h2
      injection h2 with hns hws
      subst hc
      subst hns
      cases s <;> simp [command_static_tally]
    | Pop s i =>
      injection h with h1
      injection h1 with hc h2
      injection h2 with hns hws
      subst hc
      subst hns
      cases s <;> simp [command_static_tally]
    | Neg =>
      injection h with h1
      injection h1 with hc h2
      injection h2 with hns hws
      subst hc
      subst hns
      simp only [command_static_tally]
      omega
    | Not =>
      injection h with h1
      injection h1 with hc h2
      injection h2 with hns hws
      subst hc
      subst hns
      simp only [command_static_tally]
      omega
    | Add =>
      injection h with h1
      injection h1 with hc h2
      injection h2 with hns hws
      subst hc
      subst hns
      simp only [command_static_tally]
      omega
    | Sub =>
      injection h with h1
      injection h1 with hc h2
      injection h2 with hns hws
      subst hc
      subst hns
      simp only [command_static_tally]
      omega
    | And =>
      injection h with h1
      injection h1 with hc h2
      injection h2 with hns hws
      subst hc
      subst hns
      simp only [command_static_tally]
      omega
    | Or =>
      injection h with h1
      injection h1 with hc h2
      injection h2 with hns hws
      subst hc
      subst hns
      simp only [command_static_tally]
      omega
    | Eq =>
      injection h with h1
      injection h1 with hc h2
      injection h2 with hns hws
      subst hc
      subst hns
      simp only [command_static_tally]
      omega
    | Lt =>
      injection h with h1
      injection h1 with hc h2
      injection h2 with hns hws
      subst hc
      subst hns
      simp only [command_static_tally]
      omega
    | Gt =>
      injection h with h1
      injection h1 with hc h2
      injection h2 with hns hws
      subst hc
      subst hns
      simp only [command_static_tally]
      omega
    | Return =>
      injection h with h1
      injection h1 with hc h2
      injection h2 with hns hws
      subst hc
      subst hns
      simp only [command_static_tally]
      omega

theorem convert_tokens_statics (ft : FunctionTable) (lt : LabelTable)
    (toks : List OptimizedToken) (ns : Nat) (ws : List String)
    (cmds : List Command) (ns' : Nat) (ws' : List String)
    (h : convert_tokens ft lt toks ns ws = .ok (cmds, ns', ws')) :
    ns' = max ns (commands_static_tally cmds) := by
  induction toks generalizing ns ws cmds ns' ws' with
  | nil =>
    injection h with h1
    injection h1 with hc h2
    injection h2 with hns hws
    subst hc
    subst hns
    simp only [commands_static_tally, List.foldr_nil]
    omega
  | cons t rest ih =>
    simp only [convert_tokens] at h
    rcases h1 : convert_token ft lt t ns ws with ⟨c, ns1, ws1⟩ | m | m <;> rw [h1] at h
    · simp only [Outcome.bind_ok] at h
      rcases h2 : convert_tokens ft lt rest ns1 ws1 with ⟨cs, ns2, ws2⟩ | m | m <;>
        rw [h2] at h
      · simp only [Outcome.bind_ok] at h
        injection h with h3
        injection h3 with hc h4
        injection h4 with hns hws
        subst hc
        subst hns
        have ht := convert_token_statics ft lt t ns ws c ns1 ws1 h1
        have hr := ih ns1 ws1 cs ns2 ws2 h2
        have htl : commands_static_tally (c :: cs) =
            max (command_static_tally c) (commands_static_tally cs) := rfl
        omega
      · exact Outcome.noConfusion h
      · exact Outcome.noConfusion h
    · exact Outcome.noConfusion h
    · exact Outcome.noConfusion h

theorem build_vmfunction_statics (ft : FunctionTable) (tfo : TokenizedFunctionOptimized)
    (ns : Nat) (ws : List String) (fn : VMFunction) (ns' : Nat) (ws' : List String)
    (h : build_vmfunction ft tfo ns ws = .ok (fn, ns', ws')) :
    ns' = max ns (commands_static_tally fn.commands) := by
  simp only [build_vmfunction] at h
  split at h
  · rename_i func_name num_locals rest heq
    split at h
    · exact Outcome.noConfusion h
    · rename_i fr hget
      rcases h2 : convert_tokens ft tfo.label_table rest ns ws with
        ⟨cs, ns2, ws2⟩ | m | m <;> rw [h2] at h
      · simp only [Outcome.bind_ok] at h
        injection h with h3
        injection h3 with hfn h4
        injection h4 with hns hws
        subst hfn
        subst hns
        have hr := convert_tokens_statics ft tfo.label_table rest ns ws cs ns2 ws2 h2
        have htl : commands_static_tally (Command.Function fr num_locals :: cs) =
            max 0 (commands_static_tally cs) := rfl
        show ns2 = max ns (commands_static_tally (Command.Function fr num_locals :: cs))
        omega
      · exact Outcome.noConfusion h
      · exact Outcome.noConfusion h
  · exact Outcome.noConfusion h

theorem build_file_functions_statics (ft : FunctionTable)
    (tfs : List TokenizedFunction) (ns : Nat) (ws : List String)
    (funcs : List VMFunction) (ns' : Nat) (ws' : List String)
    (h : build_file_functions ft tfs ns ws = .ok (funcs, ns', ws')) :
    ns' = max ns (functions_static_tally funcs) := by
  induction tfs generalizing ns ws funcs ns' ws' with
  | nil =>
    injection h with h1
    injection h1 with hf h2
    injection h2 with hns hws
    subst hf
    subst hns
    simp only [functions_static_tally, List.foldr_nil]
    omega
  | cons tf rest ih =>
    simp only [build_file_functions] at h
    rcases h0 : TokenizedFunctionOptimized.from tf with tfo | m | m <;> rw [h0] at h
    · simp only [Outcome.bind_ok] at h
      rcases h1 : build_vmfunction ft tfo ns ws with ⟨fn, ns1, ws1⟩ | m | m <;> rw [h1] at h
      · simp only [Outcome.bind_ok] at h
        rcases h2 : build_file_functions ft rest ns1 ws1 with ⟨fns, ns2, ws2⟩ | m | m <;>
          rw [h2] at h
        · simp only [Outcome.bind_ok] at h
          injection h with h3
          injection h3 with hf h4
          injection h4 with hns hws
          subst hf
          subst hns
          have ha := build_vmfunction_statics ft tfo ns ws fn ns1 ws1 h1
          have hb := ih ns1 ws1 fns ns2 ws2 h2
          have htl : functions_static_tally (fn :: fns) =
              max (commands_static_tally fn.commands) (functions_static_tally fns) := rfl
          omega
        · exact Outcome.noConfusion h
        · exact Outcome.noConfusion h
      · exact Outcome.noConfusion h
      · exact Outcome.noConfusion h
    · exact Outcome.noConfusion h
    · exact Outcome.noConfusion h

theorem build_files_spec (ft : FunctionTable) (files : List TokenizedFile)
    (so : Nat) (ws : List String) (fs : List VMFile) (ws' : List String)
    (h : build_files ft files so ws = .ok (fs, ws')) :
    offsets_ok so fs ∧ ∀ f ∈ fs, f.num_statics = functions_static_tally f.functions := by
  induction files generalizing so ws fs ws' with
  | nil =>
    injection h with h1
    injection h1 with hfs hws
    subst hfs
    exact ⟨trivial, by simp⟩
  | cons file rest ih =>
    simp only [build_files] at h
    rcases h1 : build_file_functions ft file.functions 0 ws with
      ⟨functions, ns, ws1⟩ | m | m <;> rw [h1] at h
    · simp only [Outcome.bind_ok] at h
      rcases h2 : build_files ft rest (so + ns) ws1 with ⟨vmfiles, ws2⟩ | m | m <;>
        rw [h2] at h
      · simp only [Outcome.bind_ok] at h
        injection h with h3
        injection h3 with hfs hws
        subst hfs
        obtain ⟨ho, hn⟩ := ih (so + ns) ws1 vmfiles ws2 h2
        have hns : ns = functions_static_tally functions := by
          have := build_file_functions_statics ft file.functions 0 ws functions ns ws1 h1
          omega
        refine ⟨⟨rfl, ho⟩, ?_⟩
        intro f hf
        rcases List.mem_cons.mp hf with hf0 | hfr
        · subst hf0
          exact hns
        · exact hn f hfr
      · exact Outcome.noConfusion h
      · exact Outcome.noConfusion h
    · exact Outcome.noConfusion h
    · exact Outcome.noConfusion h

theorem offsets_ok_le (fs : List VMFile) : ∀ (so : Nat), offsets_ok so fs →
    ∀ (j : Nat) (hj : j < fs.length), so ≤ (fs.get ⟨j, hj⟩).static_offset := by
  induction fs with
  | nil =>
    intro so _ j hj
    exact absurd hj (by simp)
  | cons f rest ih =>
    intro so ho j hj
    obtain ⟨h0, hrest⟩ := ho
    cases j with
    | zero => exact le_of_eq h0.symm
    | succ j' =>
      exact le_trans (Nat.le_add_right so f.num_statics)
        (ih (so + f.num_statics) hrest j' (Nat.lt_of_succ_lt_succ hj))

theorem offsets_ok_disjoint (fs : List VMFile) : ∀ (so : Nat), offsets_ok so fs →
    ∀ (i j : Nat) (hi : i < fs.length) (hj : j < fs.length), i < j →
      (fs.get ⟨i, hi⟩).static_offset + (fs.get ⟨i, hi⟩).num_statics ≤
        (fs.get ⟨j, hj⟩).static_offset := by
  induction fs with
  | nil =>
    intro so _ i j hi hj hij
    exact absurd hi (by simp)
  | cons f rest ih =>
    intro so ho i j hi hj hij
    obtain ⟨h0, hrest⟩ := ho
    cases i with
    | zero =>
      cases j with
      | zero => exact absurd hij (lt_irrefl 0)
      | succ j' =>
        have := offsets_ok_le rest (so + f.num_statics) hrest j' (Nat.lt_of_succ_lt_succ hj)
        show f.static_offset + f.num_statics ≤ _
        rw [h0]
        exact this
    | succ i' =>
      cases j with
      | zero => exact absurd hij (by omega)
      | succ j' =>
        exact ih (so + f.num_statics) hrest i' j' (Nat.lt_of_succ_lt_succ hi)
          (Nat.lt_of_succ_lt_succ hj) (Nat.lt_of_succ_lt_succ hij)

/-- C6: the `num_statics` accumulator of `convert_tokens` computes the
maximum static index referenced by the produced push, pop and copy-seg
commands plus one; `build_files` records each file's `num_statics` as
that tally over its functions and assigns `static_offset`s that are the
running sums of the preceding files' `num_statics` (hence distinct
files' statics occupy disjoint slices); and the emulator resolves
`static i` to absolute RAM address `16 + static_offset + i` of the file
of the currently executing function. -/
theorem statics_layout_spec :
    (∀ (ft : FunctionTable) (lt : LabelTable) (toks : List OptimizedToken)
       (ns : Nat) (ws : List String) (cmds : List Command) (ns' : Nat) (ws' : List String),
      convert_tokens ft lt toks ns ws = .ok (cmds, ns', ws') →
      ns' = max ns (commands_static_tally cmds)) ∧
    (∀ (ft : FunctionTable) (files : List TokenizedFile) (so : Nat)
       (ws : List String) (fs : List VMFile) (ws' : List String),
      build_files ft files so ws = .ok (fs, ws') →
      offsets_ok so fs ∧ ∀ f ∈ fs, f.num_statics = functions_static_tally f.functions) ∧
    (∀ (fs : List VMFile) (so : Nat), offsets_ok so fs →
      ∀ (i j : Nat) (hi : i < fs.length) (hj : j < fs.length), i < j →
        (fs.get ⟨i, hi⟩).static_offset + (fs.get ⟨i, hi⟩).num_statics ≤
          (fs.get ⟨j, hj⟩).static_offset) ∧
    (∀ (vm : VMEmulator) (f : VMStackFrame) (rest : List VMStackFrame)
       (vmfile : VMFile) (i : Nat),
      vm.call_stack = f :: rest →
      vm.program.get_file? f.function = some vmfile →
      i < vmfile.num_statics →
      16 + vmfile.static_offset + vmfile.num_statics ≤ RAM_SIZE →
      vm.seg_read Segment.Static i = .ok (vm.ram (16 + vmfile.static_offset + i))) := by
  refine ⟨convert_tokens_statics, build_files_spec, offsets_ok_disjoint, ?_⟩
  intro vm f rest vmfile i hcs hfile hi hbound
  simp only [VMEmulator.seg_read, VMEmulator.get_segment_bounds]
  rw [hcs]
  simp only [Outcome.bind_ok]
  rw [hfile]
  simp only [Outcome.bind_ok]
  rw [if_pos ⟨by omega, by omega⟩, if_pos (by omega :
    i < 16 + vmfile.static_offset + vmfile.num_statics - (16 + vmfile.static_offset))]

/-- C6 witness: a concrete static push tally, the two-file layout
`filesC6` (5 statics at offset 0, 3 at offset 5), its disjointness, and
the resolution of `static 2` of the second file to RAM address 23. -/
theorem statics_layout_spec_witness :
    (convert_tokens [] [] [OptimizedToken.Base (Token.Push Segment.Static 4)] 0 [] =
       .ok ([Command.Push Segment.Static 4], 5, []) ∧
     (5 : Nat) = max 0 (commands_static_tally [Command.Push Segment.Static 4])) ∧
    (build_files ftC6 [tfC6a, tfC6b] 0 [] = .ok (filesC6, []) ∧
     offsets_ok 0 filesC6 ∧
     ∀ f ∈ filesC6, f.num_statics = functions_static_tally f.functions) ∧
    ((filesC6.get ⟨0, by decide⟩).static_offset + (filesC6.get ⟨0, by decide⟩).num_statics ≤
       (filesC6.get ⟨1, by decide⟩).static_offset) ∧
    (vmC6.call_stack = (⟨0, ⟨1, 0⟩, 0, 0⟩ : VMStackFrame) :: [] ∧
     (2 : Nat) < 3 ∧ 16 + 5 + 3 ≤ RAM_SIZE ∧
     vmC6.seg_read Segment.Static 2 = .ok 23) := by
  refine ⟨⟨rfl, ?_⟩, ⟨rfl, ?_, ?_⟩, ?_, ⟨rfl, by decide, by decide, ?_⟩⟩
  · exact statics_layout_spec.1 [] [] [OptimizedToken.Base (Token.Push Segment.Static 4)]
      0 [] [Command.Push Segment.Static 4] 5 [] rfl
  · exact (statics_layout_spec.2.1 ftC6 [tfC6a, tfC6b] 0 [] filesC6 [] rfl).1
  · exact (statics_layout_spec.2.1 ftC6 [tfC6a, tfC6b] 0 [] filesC6 [] rfl).2
  · exact statics_layout_spec.2.2.1 filesC6 0
      ((statics_layout_spec.2.1 ftC6 [tfC6a, tfC6b] 0 [] filesC6 [] rfl).1)
      0 1 (by decide) (by decide) (by decide)
  · exact statics_layout_spec.2.2.2 vmC6 ⟨0, ⟨1, 0⟩, 0, 0⟩ []
      ⟨"B.vm",
       [⟨FunctionRef.InCode ⟨1, 0⟩, "B.g", 0,
         [Command.Function (FunctionRef.InCode ⟨1, 0⟩) 0,
          Command.Pop Segment.Static 2, Command.Return]⟩], 3, 5⟩ 2
      rfl rfl (by decide) (by decide)

theorem push_global_stack_sc (vm : VMEmulator) (v : Int) (vm' : VMEmulator)
    (h : vm.push_global_stack v = .ok vm') : vm'.step_counter = vm.step_counter := by
  simp only [push_global_stack] at h
  split_ifs at h <;>
    first
    | exact Outcome.noConfusion h
    | (injection h with h1
       subst h1
       rfl)

theorem pop_global_stack_sc (vm : VMEmulator) (a : Int) (vm' : VMEmulator)
    (h : vm.pop_global_stack = .ok (a, vm')) : vm'.step_counter = vm.step_counter := by
  simp only [pop_global_stack] at h
  split_ifs at h <;>
    first
    | exact Outcome.noConfusion h
    | (injection h with h1
       injection h1 with ha hv
       subst hv
       rfl)

theorem pop_stack_sc (vm : VMEmulator) (a : Int) (vm' : VMEmulator)
    (h : vm.pop_stack = .ok (a, vm')) : vm'.step_counter = vm.step_counter := by
  simp only [pop_stack] at h
  split at h
  · exact Outcome.noConfusion h
  · split_ifs at h
    have q := pop_global_stack_sc _ a vm' h
    exact q

theorem push_stack_sc (vm : VMEmulator) (v : Int) (vm' : VMEmulator)
    (h : vm.push_stack v = .ok vm') : vm'.step_counter = vm.step_counter := by
  simp only [push_stack] at h
  split at h
  · exact Outcome.noConfusion h
  · have q := push_global_stack_sc _ v vm' h
    exact q

theorem seg_write_sc (vm : VMEmulator) (s : Segment) (i : Nat) (v : Int) (vm' : VMEmulator)
    (h : vm.seg_write s i v = .ok vm') : vm'.step_counter = vm.step_counter := by
  simp only [seg_write] at h
  rcases hb : vm.get_segment_bounds s with ⟨s0, e0⟩ | m | m <;> rw [hb] at h
  · simp only [Outcome.bind_ok] at h
    split_ifs at h <;>
      first
      | exact Outcome.noConfusion h
      | (injection h with h1
         subst h1
         rfl)
  · exact Outcome.noConfusion h
  · exact Outcome.noConfusion h

theorem exec_push_sc (vm : VMEmulator) (s : Segment) (i : Nat) (vm' : VMEmulator)
    (h : vm.exec_push s i = .ok vm') : vm'.step_counter = vm.step_counter := by
  simp only [exec_push] at h
  rcases hv : vm.read_source s i with v | m | m <;> rw [hv] at h
  · simp only [Outcome.bind_ok] at h
    exact push_stack_sc vm v vm' h
  · exact Outcome.noConfusion h
  · exact Outcome.noConfusion h

theorem exec_pop_sc (vm : VMEmulator) (s : Segment) (i : Nat) (vm' : VMEmulator)
    (h : vm.exec_pop s i = .ok vm') : vm'.step_counter = vm.step_counter := by
  simp only [exec_pop] at h
  rcases hp : vm.pop_stack with ⟨a, vm1⟩ | m | m <;> rw [hp] at h
  · simp only [Outcome.mapError_ok, Outcome.bind_ok] at h
    exact (seg_write_sc vm1 s i a vm' h).trans (pop_stack_sc vm a vm1 hp)
  · exact Outcome.noConfusion h
  · exact Outcome.noConfusion h

theorem exec_copy_seg_sc (vm : VMEmulator) (s1 : Segment) (i1 : Nat) (s2 : Segment)
    (i2 : Nat) (vm' : VMEmulator)
    (h : vm.exec_copy_seg s1 i1 s2 i2 = .ok vm') : vm'.step_counter = vm.step_counter := by
  simp only [exec_copy_seg] at h
  rcases hv : vm.read_source s1 i1 with v | m | m <;> rw [hv] at h
  · simp only [Outcome.bind_ok] at h
    exact seg_write_sc vm s2 i2 v vm' h
  · exact Outcome.noConfusion h
  · exact Outcome.noConfusion h

theorem exec_internal_sc (vm : VMEmulator) (iid n : Nat) (vm' : VMEmulator)
    (h : vm.exec_internal iid n = .ok vm') : vm'.step_counter = vm.step_counter := by
  simp only [exec_internal] at h
  split at h
  · split_ifs at h
    rcases hp1 : vm.pop_stack with ⟨a, vm1⟩ | m | m <;> rw [hp1] at h
    · simp only [Outcome.mapError_ok, Outcome.bind_ok] at h
      rcases hp2 : vm1.pop_stack with ⟨b, vm2⟩ | m | m <;> rw [hp2] at h
      · simp only [Outcome.mapError_ok, Outcome.bind_ok] at h
        split_ifs at h
        exact ((push_stack_sc vm2 _ vm' h).trans
          (pop_stack_sc vm1 b vm2 hp2)).trans (pop_stack_sc vm a vm1 hp1)
      · exact Outcome.noConfusion h
      · exact Outcome.noConfusion h
    · exact Outcome.noConfusion h
    · exact Outcome.noConfusion h
  · split_ifs at h
    rcases hp1 : vm.pop_stack with ⟨a, vm1⟩ | m | m <;> rw [hp1] at h
    · simp only [Outcome.mapError_ok, Outcome.bind_ok] at h
      rcases hp2 : vm1.pop_stack with ⟨b, vm2⟩ | m | m <;> rw [hp2] at h
      · simp only [Outcome.mapError_ok, Outcome.bind_ok] at h
        exact ((push_stack_sc vm2 _ vm' h).trans
          (pop_stack_sc vm1 b vm2 hp2)).trans (pop_stack_sc vm a vm1 hp1)
      · exact Outcome.noConfusion h
      · exact Outcome.noConfusion h
    · exact Outcome.noConfusion h
    · exact Outcome.noConfusion h
  · exact Outcome.noConfusion h

theorem exec_call_sc (vm : VMEmulator) (fr : InCodeFuncRef) (n : Nat) (vm' : VMEmulator)
    (h : vm.exec_call fr n = .ok vm') : vm'.step_counter = vm.step_counter := by
  simp only [exec_call] at h
  split at h
  · exact Outcome.noConfusion h
  · rename_i f tail heq
    rcases h1 : vm.push_stack (wrap32 (Int.ofNat (f.index + 1))) with vm1 | m | m <;>
      rw [h1] at h
    · simp only [Outcome.bind_ok] at h
      rcases h2 : vm1.push_stack (vm1.ram LCL) with vm2 | m | m <;> rw [h2] at h
      · simp only [Outcome.bind_ok] at h
        rcases h3 : vm2.push_stack (vm2.ram ARG) with vm3 | m | m <;> rw [h3] at h
        · simp only [Outcome.bind_ok] at h
          rcases h4 : vm3.push_stack (vm3.ram THIS) with vm4 | m | m <;> rw [h4] at h
          · simp only [Outcome.bind_ok] at h
            rcases h5 : vm4.push_stack (vm4.ram THAT) with vm5 | m | m <;> rw [h5] at h
            · simp only [Outcome.bind_ok] at h
              injection h with h6
              subst h6
              have e1 := push_stack_sc vm _ vm1 h1
              have e2 := push_stack_sc vm1 _ vm2 h2
              have e3 := push_stack_sc vm2 _ vm3 h3
              have e4 := push_stack_sc vm3 _ vm4 h4
              have e5 := push_stack_sc vm4 _ vm5 h5
              show vm5.step_counter = vm.step_counter
              omega
            · exact Outcome.noConfusion h
            · exact Outcome.noConfusion h
          · exact Outcome.noConfusion h
          · exact Outcome.noConfusion h
        · exact Outcome.noConfusion h
        · exact Outcome.noConfusion h
      · exact Outcome.noConfusion h
      · exact Outcome.noConfusion h
    · exact Outcome.noConfusion h
    · exact Outcome.noConfusion h

theorem restore_register_sc (vm : VMEmulator) (addr : Nat) (vm' : VMEmulator)
    (h : vm.restore_register addr = .ok vm') : vm'.step_counter = vm.step_counter := by
  simp only [restore_register] at h
  rcases hp : vm.pop_global_stack with ⟨a, vm1⟩ | m | m <;> rw [hp] at h
  · simp only [Outcome.bind_ok] at h
    injection h with h1
    subst h1
    exact pop_global_stack_sc vm a vm1 hp
  · exact Outcome.noConfusion h
  · exact Outcome.noConfusion h

theorem exec_return_sc (vm : VMEmulator) (vm' : VMEmulator)
    (h : vm.exec_return = .ok vm') : vm'.step_counter = vm.step_counter := by
  simp only [exec_return] at h
  rcases hp : vm.pop_stack with ⟨rv, vmA⟩ | m | m <;> rw [hp] at h
  · simp only [Outcome.bind_ok] at h
    rcases h1 : (vmA.set_ram_reg SP (vmA.ram LCL)).restore_register THAT with vmB | m | m <;>
      rw [h1] at h
    · simp only [Outcome.bind_ok] at h
      rcases h2 : vmB.restore_register THIS with vmC | m | m <;> rw [h2] at h
      · simp only [Outcome.bind_ok] at h
        rcases h3 : vmC.restore_register ARG with vmD | m | m <;> rw [h3] at h
        · simp only [Outcome.bind_ok] at h
          rcases h4 : vmD.restore_register LCL with vmE | m | m <;> rw [h4] at h
          · simp only [Outcome.bind_ok] at h
            rcases h5 : vmE.pop_global_stack with ⟨ri, vmF⟩ | m | m <;> rw [h5] at h
            · simp only [Outcome.bind_ok] at h
              rcases h6 : (vmF.set_ram_reg SP (vmA.ram ARG)).push_global_stack rv with
                vmG | m | m <;> rw [h6] at h
              · simp only [Outcome.bind_ok] at h
                split at h
                · exact Outcome.noConfusion h
                · split at h
                  · exact Outcome.noConfusion h
                  · injection h with h7
                    subst h7
                    have e1 := pop_stack_sc vm rv vmA hp
                    have e2pre := restore_register_sc _ THAT vmB h1
                    have e2 : vmB.step_counter = vmA.step_counter := e2pre
                    have e3 := restore_register_sc vmB THIS vmC h2
                    have e4 := restore_register_sc vmC ARG vmD h3
                    have e5 := restore_register_sc vmD LCL vmE h4
                    have e6 := pop_global_stack_sc vmE ri vmF h5
                    have e7pre := push_global_stack_sc _ rv vmG h6
                    have e7 : vmG.step_counter = vmF.step_counter := e7pre
                    show vmG.step_counter = vm.step_counter
                    omega
              · exact Outcome.noConfusion h
              · exact Outcome.noConfusion h
            · exact Outcome.noConfusion h
            · exact Outcome.noConfusion h
          · exact Outcome.noConfusion h
          · exact Outcome.noConfusion h
        · exact Outcome.noConfusion h
        · exact Outcome.noConfusion h
      · exact Outcome.noConfusion h
      · exact Outcome.noConfusion h
    · exact Outcome.noConfusion h
    · exact Outcome.noConfusion h
  · exact Outcome.noConfusion h
  · exact Outcome.noConfusion h

theorem exec_arithmetic_sc (vm : VMEmulator) (op : Operation) (vm' : VMEmulator)
    (h : vm.exec_arithmetic op = .ok vm') : vm'.step_counter = vm.step_counter := by
  simp only [exec_arithmetic] at h
  split at h
  · rcases hp : vm.pop_stack with ⟨a, vm1⟩ | m | m <;> rw [hp] at h
    · simp only [Outcome.bind_ok] at h
      exact (push_stack_sc vm1 _ vm' h).trans (pop_stack_sc vm a vm1 hp)
    · exact Outcome.noConfusion h
    · exact Outcome.noConfusion h
  · rcases hp : vm.pop_stack with ⟨a, vm1⟩ | m | m <;> rw [hp] at h
    · simp only [Outcome.bind_ok] at h
      exact (push_stack_sc vm1 _ vm' h).trans (pop_stack_sc vm a vm1 hp)
    · exact Outcome.noConfusion h
    · exact Outcome.noConfusion h
  · rcases hp1 : vm.pop_stack with ⟨a, vm1⟩ | m | m <;> rw [hp1] at h
    · simp only [Outcome.bind_ok] at h
      rcases hp2 : vm1.pop_stack with ⟨b, vm2⟩ | m | m <;> rw [hp2] at h
      · simp only [Outcome.bind_ok] at h
        exact ((push_stack_sc vm2 _ vm' h).trans
          (pop_stack_sc vm1 b vm2 hp2)).trans (pop_stack_sc vm a vm1 hp1)
      · exact Outcome.noConfusion h
      · exact Outcome.noConfusion h
    · exact Outcome.noConfusion h
    · exact Outcome.noConfusion h

theorem advance_index_sc (vm : VMEmulator) (vm' : VMEmulator)
    (h : vm.advance_index = .ok vm') : vm'.step_counter = vm.step_counter := by
  simp only [advance_index] at h
  split at h
  · exact Outcome.noConfusion h
  · injection h with h1
    subst h1
    rfl

theorem set_index_sc (vm : VMEmulator) (i : Nat) (vm' : VMEmulator)
    (h : vm.set_index i = .ok vm') : vm'.step_counter = vm.step_counter := by
  simp only [set_index] at h
  split at h
  · exact Outcome.noConfusion h
  · injection h with h1
    subst h1
    rfl

theorem push_zero_locals_sc (n : Nat) : ∀ (vm vm' : VMEmulator),
    vm.push_zero_locals n = .ok vm' → vm'.step_counter = vm.step_counter := by
  induction n with
  | zero =>
    intro vm vm' h
    injection h with h1
    subst h1
    rfl
  | succ k ih =>
    intro vm vm' h
    simp only [push_zero_locals] at h
    rcases hp : vm.push_global_stack 0 with vm1 | m | m <;> rw [hp] at h
    · simp only [Outcome.bind_ok] at h
      exact (ih vm1 vm' h).trans (push_global_stack_sc vm 0 vm1 hp)
    · exact Outcome.noConfusion h
    · exact Outcome.noConfusion h

theorem init_sc (vm : VMEmulator) (vm' : VMEmulator)
    (h : vm.init = .ok vm') : vm'.step_counter = vm.step_counter := by
  simp only [init] at h
  split at h
  · injection h with h1
    subst h1
    rfl
  · exact Outcome.noConfusion h

theorem step_sc (vm : VMEmulator) (r : Option Int) (vm' : VMEmulator)
    (h : vm.step = .ok (r, vm')) : vm'.step_counter = vm.step_counter + 1 := by
  simp only [step] at h
  split at h
  · exact Outcome.noConfusion h
  · rename_i f tail heq
    rcases hc : VMEmulator.get_command { vm with step_counter := vm.step_counter + 1 }
        f.function f.index with cmd | m | m <;> rw [hc] at h
    · simp only [Outcome.bind_ok] at h
      split at h
      · rename_i fref nl
        rcases hz : VMEmulator.push_zero_locals
            { vm with step_counter := vm.step_counter + 1 } nl with vm1 | m | m <;>
          rw [hz] at h
        · simp only [Outcome.bind_ok] at h
          rcases ha : vm1.advance_index with vm2 | m | m <;> rw [ha] at h
          · simp only [Outcome.bind_ok] at h
            injection h with h1
            injection h1 with hr hv
            subst hv
            have q1 : vm1.step_counter = vm.step_counter + 1 :=
              push_zero_locals_sc nl _ vm1 hz
            have q2 := advance_index_sc vm1 vm2 ha
            omega
          · exact Outcome.noConfusion h
          · exact Outcome.noConfusion h
        · exact Outcome.noConfusion h
        · exact Outcome.noConfusion h
      · split at h
        · rename_i iid
          rcases he : VMEmulator.exec_internal
              { vm with step_counter := vm.step_counter + 1 } iid _ with vm1 | m | m <;>
            rw [he] at h
          · simp only [Outcome.mapError_ok, Outcome.bind_ok] at h
            rcases ha : vm1.advance_index with vm2 | m | m <;> rw [ha] at h
            · simp only [Outcome.bind_ok] at h
              injection h with h1
              injection h1 with hr hv
              subst hv
              have q1 : vm1.step_counter = vm.step_counter + 1 :=
                exec_internal_sc _ iid _ vm1 he
              have q2 := advance_index_sc vm1 vm2 ha
              omega
            · exact Outcome.noConfusion h
            · exact Outcome.noConfusion h
          · exact Outcome.noConfusion h
          · exact Outcome.noConfusion h
        · rename_i icr
          rcases he : VMEmulator.exec_call
              { vm with step_counter := vm.step_counter + 1 } icr _ with vm1 | m | m <;>
            rw [he] at h
          · simp only [Outcome.mapError_ok, Outcome.bind_ok] at h
            injection h with h1
            injection h1 with hr hv
            subst hv
            exact exec_call_sc _ icr _ vm1 he
          · exact Outcome.noConfusion h
          · exact Outcome.noConfusion h
      · split_ifs at h
        · rcases hpk : VMEmulator.peek_stack
              { vm with step_counter := vm.step_counter + 1 } with v | m | m <;>
            rw [hpk] at h
          · simp only [Outcome.bind_ok] at h
            injection h with h1
            injection h1 with hr hv
            subst hv
            rfl
          · exact Outcome.noConfusion h
          · exact Outcome.noConfusion h
        · rcases he : VMEmulator.exec_return
              { vm with step_counter := vm.step_counter + 1 } with vm1 | m | m <;>
            rw [he] at h
          · simp only [Outcome.bind_ok] at h
            injection h with h1
            injection h1 with hr hv
            subst hv
            exact exec_return_sc _ vm1 he
          · exact Outcome.noConfusion h
          · exact Outcome.noConfusion h
      · rename_i idx
        rcases hsi : VMEmulator.set_index
            { vm with step_counter := vm.step_counter + 1 } idx with vm1 | m | m <;>
          rw [hsi] at h
        · simp only [Outcome.bind_ok] at h
          injection h with h1
          injection h1 with hr hv
          subst hv
          exact set_index_sc _ idx vm1 hsi
        · exact Outcome.noConfusion h
        · exact Outcome.noConfusion h
      · rename_i idx
        rcases hp : VMEmulator.pop_stack
            { vm with step_counter := vm.step_counter + 1 } with ⟨v, vm1⟩ | m | m <;>
          rw [hp] at h
        · simp only [Outcome.mapError_ok, Outcome.bind_ok] at h
          have q1 : vm1.step_counter = vm.step_counter + 1 := pop_stack_sc _ v vm1 hp
          split_ifs at h
          · rcases hsi : vm1.set_index idx with vm2 | m | m <;> rw [hsi] at h
            · simp only [Outcome.bind_ok] at h
              injection h with h1
              injection h1 with hr hv
              subst hv
              have q2 := set_index_sc vm1 idx vm2 hsi
              omega
            · exact Outcome.noConfusion h
            · exact Outcome.noConfusion h
          · rcases ha : vm1.advance_index with vm2 | m | m <;> rw [ha] at h
            · simp only [Outcome.bind_ok] at h
              injection h with h1
              injection h1 with hr hv
              subst hv
              have q2 := advance_index_sc vm1 vm2 ha
              omega
            · exact Outcome.noConfusion h
            · exact Outcome.noConfusion h
        · exact Outcome.noConfusion h
        · exact Outcome.noConfusion h
      · rename_i s i
        rcases he : VMEmulator.exec_push
            { vm with step_counter := vm.step_counter + 1 } s i with vm1 | m | m <;>
          rw [he] at h
        · simp only [Outcome.mapError_ok, Outcome.bind_ok] at h
          rcases ha : vm1.advance_index with vm2 | m | m <;> rw [ha] at h
          · simp only [Outcome.bind_ok] at h
            injection h with h1
            injection h1 with hr hv
            subst hv
            have q1 : vm1.step_counter = vm.step_counter + 1 := exec_push_sc _ s i vm1 he
            have q2 := advance_index_sc vm1 vm2 ha
            omega
          · exact Outcome.noConfusion h
          · exact Outcome.noConfusion h
        · exact Outcome.noConfusion h
        · exact Outcome.noConfusion h
      · rename_i s i
        rcases he : VMEmulator.exec_pop
            { vm with step_counter := vm.step_counter + 1 } s i with vm1 | m | m <;>
          rw [he] at h
        · simp only [Outcome.mapError_ok, Outcome.bind_ok] at h
          rcases ha : vm1.advance_index with vm2 | m | m <;> rw [ha] at h
          · simp only [Outcome.bind_ok] at h
            injection h with h1
            injection h1 with hr hv
            subst hv
            have q1 : vm1.step_counter = vm.step_counter + 1 := exec_pop_sc _ s i vm1 he
            have q2 := advance_index_sc vm1 vm2 ha
            omega
          · exact Outcome.noConfusion h
          · exact Outcome.noConfusion h
        · exact Outcome.noConfusion h
        · exact Outcome.noConfusion h
      · rename_i s1 i1 s2 i2
        rcases he : VMEmulator.exec_copy_seg
            { vm with step_counter := vm.step_counter + 1 } s1 i1 s2 i2 with vm1 | m | m <;>
          rw [he] at h
        · simp only [Outcome.mapError_ok, Outcome.bind_ok] at h
          rcases ha : vm1.advance_index with vm2 | m | m <;> rw [ha] at h
          · simp only [Outcome.bind_ok] at h
            injection h with h1
            injection h1 with hr hv
            subst hv
            have q1 : vm1.step_counter = vm.step_counter + 1 :=
              exec_copy_seg_sc _ s1 i1 s2 i2 vm1 he
            have q2 := advance_index_sc vm1 vm2 ha
            omega
          · exact Outcome.noConfusion h
          · exact Outcome.noConfusion h
        · exact Outcome.noConfusion h
        · exact Outcome.noConfusion h
      · rename_i op
        rcases he : VMEmulator.exec_arithmetic
            { vm with step_counter := vm.step_counter + 1 } op with vm1 | m | m <;>
          rw [he] at h
        · simp only [Outcome.mapError_ok, Outcome.bind_ok] at h
          rcases ha : vm1.advance_index with vm2 | m | m <;> rw [ha] at h
          · simp only [Outcome.bind_ok] at h
            injection h with h1
            injection h1 with hr hv
            subst hv
            have q1 : vm1.step_counter = vm.step_counter + 1 :=
              exec_arithmetic_sc _ op vm1 he
            have q2 := advance_index_sc vm1 vm2 ha
            omega
          · exact Outcome.noConfusion h
          · exact Outcome.noConfusion h
        · exact Outcome.noConfusion h
        · exact Outcome.noConfusion h
    · exact Outcome.noConfusion h
    · exact Outcome.noConfusion h

theorem run_steps_zero (vm : VMEmulator) : run_steps vm 0 = .ok (none, vm) := rfl

theorem run_steps_succ (vm : VMEmulator) (k : Nat) :
    run_steps vm (k + 1) =
      match vm.step with
      | .ok (some v, w) => .ok (some v, w)
      | .ok (none, w) => run_steps w k
      | .error m => .error m
      | .panic m => .panic m := rfl

theorem run_loop_succ (max_steps f : Nat) (vm : VMEmulator) :
    run_loop max_steps (f + 1) vm =
      match vm.step with
      | .error m => .error m
      | .panic m => .panic m
      | .ok (some result, _) => .ok result
      | .ok (none, vm1) =>
        if vm1.step_counter > max_steps then .error (budget_message max_steps)
        else run_loop max_steps f vm1 := rfl

theorem run_loop_spec (k : Nat) : ∀ (vm1 : VMEmulator) (max_steps fuel : Nat),
    vm1.step_counter + (k + 1) = max_steps + 1 → k + 2 ≤ fuel →
    run_loop max_steps fuel vm1 =
      match run_steps vm1 (k + 1) with
      | .ok (some v, _) => .ok v
      | .ok (none, _) => .error (budget_message max_steps)
      | .error m => .error m
      | .panic m => .panic m := by
  induction k with
  | zero =>
    intro vm1 max_steps fuel hc hf
    obtain ⟨f, rfl⟩ : ∃ f, fuel = f + 1 := ⟨fuel - 1, by omega⟩
    rw [run_loop_succ, run_steps_succ]
    rcases hs : vm1.step with ⟨r, w⟩ | m | m
    · rcases r with _ | v
      · have hw := step_sc vm1 none w hs
        show (if w.step_counter > max_steps then Outcome.error (budget_message max_steps)
              else run_loop max_steps f w) =
            match (Outcome.ok (none, w) : Outcome (Option Int × VMEmulator)) with
            | .ok (some v, _) => Outcome.ok v
            | .ok (none, _) => Outcome.error (budget_message max_steps)
            | .error m => Outcome.error m
            | .panic m => Outcome.panic m
        rw [if_pos (by omega)]
      · rfl
    · rfl
    · rfl
  | succ k ih =>
    intro vm1 max_steps fuel hc hf
    obtain ⟨f, rfl⟩ : ∃ f, fuel = f + 1 := ⟨fuel - 1, by omega⟩
    rw [run_loop_succ, run_steps_succ]
    rcases hs : vm1.step with ⟨r, w⟩ | m | m
    · rcases r with _ | v
      · have hw := step_sc vm1 none w hs
        show (if w.step_counter > max_steps then Outcome.error (budget_message max_steps)
              else run_loop max_steps f w) =
            match run_steps w (k + 1) with
            | .ok (some v, _) => Outcome.ok v
            | .ok (none, _) => Outcome.error (budget_message max_steps)
            | .error m => Outcome.error m
            | .panic m => Outcome.panic m
        rw [if_neg (by omega)]
        exact ih w max_steps f (by omega) (by omega)
      · rfl
    · rfl
    · rfl

/-- C7 (amended): `run(max_steps)` returns the program's halt code
whenever the program halts within `max_steps + 1` steps — one more than
the stated budget — and returns the step-budget-exceeded error exactly
when the program makes `max_steps + 1` steps without halting; a step
error or panic is propagated unchanged. -/
theorem run_budget_spec (vm : VMEmulator) (max_steps : Nat) (vm1 : VMEmulator)
    (hinit : vm.init = .ok vm1) (h0 : vm.step_counter = 0) :
    vm.run max_steps =
      match run_steps vm1 (max_steps + 1) with
      | .ok (some v, _) => .ok v
      | .ok (none, _) => .error (budget_message max_steps)
      | .error m => .error m
      | .panic m => .panic m := by
  have h1 : vm1.step_counter = 0 := (init_sc vm vm1 hinit).trans h0
  simp only [run]
  rw [hinit]
  simp only [Outcome.bind_ok]
  exact run_loop_spec max_steps vm1 max_steps (max_steps + 2) (by omega) (by omega)

/-- C7 counterexample to the claim as stated: `progC7` has not halted
within 2 steps (two steps leave it still running), yet `run 2` does not
return the budget error — the third step halts and `run 2 = .ok 10`. -/
theorem run_budget_counterexample :
    (VMEmulator.new progC7).run 2 = .ok 10 ∧
    ∃ vm1 w, (VMEmulator.new progC7).init = .ok vm1 ∧
      run_steps vm1 2 = .ok (none, w) := by
  exact ⟨rfl, _, _, rfl, rfl⟩

/-- C7 witness: the amended budget equation at `progC7` with a budget of
2 steps. -/
theorem run_budget_spec_witness :
    (VMEmulator.new progC7).init = .ok vmC7init ∧
    (VMEmulator.new progC7).step_counter = 0 ∧
    (VMEmulator.new progC7).run 2 =
      match run_steps vmC7init 3 with
      | .ok (some v, _) => .ok v
      | .ok (none, _) => .error (budget_message 2)
      | .error m => .error m
      | .panic m => .panic m :=
  ⟨rfl, rfl, run_budget_spec (VMEmulator.new progC7) 2 vmC7init rfl rfl⟩

/-- C8 (amended): the compiler lowers a while statement to
`Label(WHILE) ; <condition> ; Not ; If(WHILE_END) ; <body> ;
Goto(WHILE) ; Label(WHILE_END)` — but with the FIXED label strings
`WHILE` and `WHILE_END` for every loop, not labels unique within the
enclosing function. -/
theorem while_lowering_spec :
    ∀ (ctx : MethodCtx) (ns : Namespace) (cond : Expression) (block : List Stmt)
      (condToks : List Token) (blockToks : List Token) (ns1 : Namespace),
      compile_expression ctx ns cond = .ok condToks →
      compile_block ctx ns block = .ok (blockToks, ns1) →
      compile_while_statement ctx ns cond block =
        .ok ([Token.Label "WHILE"] ++ condToks ++ [Token.Not, Token.If "WHILE_END"] ++
             blockToks ++ [Token.Goto "WHILE", Token.Label "WHILE_END"], ns1) := by
  intro ctx ns cond block condToks blockToks ns1 hcond hblock
  simp only [compile_while_statement]
  rw [hcond]
  simp only [Outcome.bind_ok]
  rw [hblock]
  simp only [Outcome.bind_ok]

/-- C8 counterexample to the claim as stated: two `while (1) {}` loops
compiled into the same function reuse the same `WHILE` / `WHILE_END`
labels, so the labels are not unique — the duplicate `Label WHILE`
makes the label table of the enclosing function fail to build. -/
theorem while_labels_counterexample :
    compile_block ctxC8 [] [wstmtC8, wstmtC8] = .ok (toksC8, []) ∧
    toksC8.count (Token.Label "WHILE") = 2 ∧
    TokenizedFunctionOptimized.from ⟨"Main.main", Token.Function "Main.main" 0 :: toksC8⟩ =
      .error "failed building label table for Main.main: label \"WHILE\" declared twice" := by
  refine ⟨?_, by decide, rfl⟩
  simp [compile_block, compile_while_statement, compile_expression, compile_term,
    wstmtC8, ctxC8, toksC8]

/-- C8 witness: the lowering shape at a concrete loop `while (1) {}`. -/
theorem while_lowering_spec_witness :
    compile_expression ctxC8 [] (Expression.mk (Term.Number 1)) =
      .ok [Token.Push Segment.Constant 1] ∧
    compile_block ctxC8 [] [] = .ok ([], []) ∧
    compile_while_statement ctxC8 [] (Expression.mk (Term.Number 1)) [] =
      .ok ([Token.Label "WHILE"] ++ [Token.Push Segment.Constant 1] ++
           [Token.Not, Token.If "WHILE_END"] ++ [] ++
           [Token.Goto "WHILE", Token.Label "WHILE_END"], []) := by
  have h1 : compile_expression ctxC8 [] (Expression.mk (Term.Number 1)) =
      .ok [Token.Push Segment.Constant 1] := by
    simp [compile_expression, compile_term]
  have h2 : compile_block ctxC8 [] ([] : List Stmt) = .ok ([], []) := by
    simp [compile_block]
  exact ⟨h1, h2,
    while_lowering_spec ctxC8 [] (Expression.mk (Term.Number 1)) []
      [Token.Push Segment.Constant 1] [] [] h1 h2⟩

/-- C9: frame isolation of the operand stack: `pop_stack` fails with an
error when the top frame's `stack_size` is 0 even though the global
stack below it is non-empty, `push_stack` increments the counter and
`pop_stack` decrements it. -/
theorem pop_stack_frame_isolation :
    (∀ (vm : VMEmulator) (f : VMStackFrame) (rest : List VMStackFrame),
      vm.call_stack = f :: rest → f.stack_size = 0 → 256 < vm.ram SP →
      vm.pop_stack = .error "local stack is empty") ∧
    (∀ (vm : VMEmulator) (f : VMStackFrame) (rest : List VMStackFrame) (v : Int),
      vm.call_stack = f :: rest → 256 ≤ vm.ram SP → vm.ram SP < RAM_SIZE →
      ∃ vm', vm.push_stack v = .ok vm' ∧
        vm'.call_stack = { f with stack_size := f.stack_size + 1 } :: rest) ∧
    (∀ (vm : VMEmulator) (f : VMStackFrame) (rest : List VMStackFrame),
      vm.call_stack = f :: rest → 0 < f.stack_size → 256 < vm.ram SP →
      vm.ram SP ≤ RAM_SIZE →
      ∃ r vm', vm.pop_stack = .ok (r, vm') ∧
        vm'.call_stack = { f with stack_size := f.stack_size - 1 } :: rest) := by
  refine ⟨?_, ?_, ?_⟩
  · intro vm f rest hcs hsz _
    exact pop_stack_empty vm f rest hcs hsz
  · intro vm f rest v hcs h1 h2
    obtain ⟨vm', e, _, _, hc, _, _, _⟩ := push_stack_fact vm f rest v hcs h1 h2
    exact ⟨vm', e, hc⟩
  · intro vm f rest hcs hsz h1 h2
    obtain ⟨vm', e, _, _, hc, _, _⟩ := pop_stack_fact vm f rest hcs hsz h1 h2
    exact ⟨_, vm', e, hc⟩

/-- Witness: `pop_stack_frame_isolation` at a state whose frame owns no
operands while the global stack is non-empty. -/
theorem pop_stack_frame_isolation_witness :
    vmW.call_stack = frameW :: [] ∧ frameW.stack_size = 0 ∧ 256 < vmW.ram SP ∧
    vmW.pop_stack = .error "local stack is empty" :=
  ⟨rfl, rfl, by decide,
    pop_stack_frame_isolation.1 vmW frameW [] rfl rfl (by decide)⟩

/-- C10: intrinsic dispatch `exec_internal`: id 0 (`Math.divide`) pops `a`
then `b` and pushes the truncated quotient `b / a`, id 1
(`Math.multiply`) pushes `b * a`; division by zero, a wrong argument
count and an unknown id all abort with a panic, not an error return. -/
theorem exec_internal_spec :
    (∀ (vm : VMEmulator) (f : VMStackFrame) (rest : List VMStackFrame),
      vm.call_stack = f :: rest → 2 ≤ f.stack_size →
      258 ≤ vm.ram SP → vm.ram SP ≤ RAM_SIZE →
      vm.ram (vm.ram SP - 1).toNat ≠ 0 →
      ¬(vm.ram (vm.ram SP - 2).toNat = -(2 ^ 31) ∧ vm.ram (vm.ram SP - 1).toNat = -1) →
      ∃ vm', vm.exec_internal 0 2 = .ok vm' ∧
        vm'.ram SP = vm.ram SP - 1 ∧
        vm'.ram (vm.ram SP - 2).toNat =
          Int.tdiv (vm.ram (vm.ram SP - 2).toNat) (vm.ram (vm.ram SP - 1).toNat)) ∧
    (∀ (vm : VMEmulator) (f : VMStackFrame) (rest : List VMStackFrame),
      vm.call_stack = f :: rest → 2 ≤ f.stack_size →
      258 ≤ vm.ram SP → vm.ram SP ≤ RAM_SIZE →
      -2147483648 ≤ vm.ram (vm.ram SP - 2).toNat * vm.ram (vm.ram SP - 1).toNat →
      vm.ram (vm.ram SP - 2).toNat * vm.ram (vm.ram SP - 1).toNat < 2147483648 →
      ∃ vm', vm.exec_internal 1 2 = .ok vm' ∧
        vm'.ram SP = vm.ram SP - 1 ∧
        vm'.ram (vm.ram SP - 2).toNat =
          vm.ram (vm.ram SP - 2).toNat * vm.ram (vm.ram SP - 1).toNat) ∧
    (∀ (vm : VMEmulator) (f : VMStackFrame) (rest : List VMStackFrame),
      vm.call_stack = f :: rest → 2 ≤ f.stack_size →
      258 ≤ vm.ram SP → vm.ram SP ≤ RAM_SIZE →
      vm.ram (vm.ram SP - 1).toNat = 0 →
      vm.exec_internal 0 2 = .panic "attempt to divide by zero") ∧
    (∀ (vm : VMEmulator) (n : Nat), n ≠ 2 →
      vm.exec_internal 0 n = .panic "Expected Math.divide to be called with 2 args") ∧
    (∀ (vm : VMEmulator) (internal_id n : Nat), 2 ≤ internal_id →
      vm.exec_internal internal_id n = .panic "Unknown internal function") := by
  have two_pops : ∀ (vm : VMEmulator) (f : VMStackFrame) (rest : List VMStackFrame),
      vm.call_stack = f :: rest → 2 ≤ f.stack_size →
      258 ≤ vm.ram SP → vm.ram SP ≤ RAM_SIZE →
      ∃ vmB, vm.pop_stack = .ok (vm.ram (vm.ram SP - 1).toNat, vmB) ∧
        ∃ vmC, vmB.pop_stack = .ok (vm.ram (vm.ram SP - 2).toNat, vmC) ∧
          vmC.call_stack = ⟨f.stack_size - 2, f.function, f.index, f.num_args⟩ :: rest ∧
          vmC.ram SP = vm.ram SP - 2 := by
    intro vm f rest hcs hsz h1 h2
    have hSP : SP = 0 := rfl
    have hRS : RAM_SIZE = 24577 := rfl
    obtain ⟨vmB, eB, hpB, hsB, hcB, hspB, hfB⟩ :=
      pop_stack_fact vm f rest hcs (by omega) (by omega) h2
    have hcB' : vmB.call_stack = ⟨f.stack_size - 1, f.function, f.index, f.num_args⟩ :: rest := by
      rw [hcB]
    obtain ⟨vmC, eC, hpC, hsC, hcC, hspC, hfC⟩ :=
      pop_stack_fact vmB ⟨f.stack_size - 1, f.function, f.index, f.num_args⟩ rest hcB'
        (by show 0 < f.stack_size - 1 ; omega) (by rw [hspB] ; omega) (by rw [hspB] ; omega)
    have hb : vmB.ram (vmB.ram SP - 1).toNat = vm.ram (vm.ram SP - 2).toNat := by
      rw [hspB, show (vm.ram SP - 1 - 1).toNat = (vm.ram SP - 2).toNat from by omega]
      exact hfB _ (by omega)
    rw [hb] at eC
    have hcC' : vmC.call_stack = ⟨f.stack_size - 2, f.function, f.index, f.num_args⟩ :: rest := by
      rw [hcC]
      show (⟨f.stack_size - 1 - 1, f.function, f.index, f.num_args⟩ : VMStackFrame) :: rest = _
      rw [show f.stack_size - 1 - 1 = f.stack_size - 2 from by omega]
    refine ⟨vmB, eB, vmC, eC, hcC', ?_⟩
    rw [hspC, hspB] ; ring
  refine ⟨?_, ?_, ?_, ?_, ?_⟩
  · intro vm f rest hcs hsz h1 h2 hnz hov
    have hSP : SP = 0 := rfl
    have hRS : RAM_SIZE = 24577 := rfl
    obtain ⟨vmB, eB, vmC, eC, hcC, hspC⟩ := two_pops vm f rest hcs hsz h1 h2
    simp only [exec_internal]
    rw [if_neg (by omega), eB]
    simp only [Outcome.mapError_ok, Outcome.bind_ok]
    rw [eC]
    simp only [Outcome.mapError_ok, Outcome.bind_ok]
    rw [if_neg hnz, if_neg hov]
    obtain ⟨vmP, eP, hpP, hsP, hcP, hspP, hvP, hfP⟩ :=
      push_stack_fact vmC ⟨f.stack_size - 2, f.function, f.index, f.num_args⟩ rest
        (Int.tdiv (vm.ram (vm.ram SP - 2).toNat) (vm.ram (vm.ram SP - 1).toNat))
        hcC (by rw [hspC] ; omega) (by rw [hspC] ; omega)
    refine ⟨vmP, eP, ?_, ?_⟩
    · rw [hspP, hspC] ; ring
    · have h := hvP
      rw [hspC] at h
      exact h
  · intro vm f rest hcs hsz h1 h2 hlo hhi
    have hSP : SP = 0 := rfl
    have hRS : RAM_SIZE = 24577 := rfl
    obtain ⟨vmB, eB, vmC, eC, hcC, hspC⟩ := two_pops vm f rest hcs hsz h1 h2
    simp only [exec_internal]
    rw [if_neg (by omega), eB]
    simp only [Outcome.mapError_ok, Outcome.bind_ok]
    rw [eC]
    simp only [Outcome.mapError_ok, Outcome.bind_ok]
    have hwr : wrap32 (vm.ram (vm.ram SP - 2).toNat * vm.ram (vm.ram SP - 1).toNat) =
        vm.ram (vm.ram SP - 2).toNat * vm.ram (vm.ram SP - 1).toNat :=
      wrap32_eq hlo hhi
    rw [hwr]
    obtain ⟨vmP, eP, hpP, hsP, hcP, hspP, hvP, hfP⟩ :=
      push_stack_fact vmC ⟨f.stack_size - 2, f.function, f.index, f.num_args⟩ rest
        (vm.ram (vm.ram SP - 2).toNat * vm.ram (vm.ram SP - 1).toNat)
        hcC (by rw [hspC] ; omega) (by rw [hspC] ; omega)
    refine ⟨vmP, eP, ?_, ?_⟩
    · rw [hspP, hspC] ; ring
    · have h := hvP
      rw [hspC] at h
      exact h
  · intro vm f rest hcs hsz h1 h2 hz
    have hSP : SP = 0 := rfl
    have hRS : RAM_SIZE = 24577 := rfl
    obtain ⟨vmB, eB, vmC, eC, hcC, hspC⟩ := two_pops vm f rest hcs hsz h1 h2
    simp only [exec_internal]
    rw [if_neg (by omega), eB]
    simp only [Outcome.mapError_ok, Outcome.bind_ok]
    rw [eC]
    simp only [Outcome.mapError_ok, Outcome.bind_ok]
    rw [if_pos hz]
  · intro vm n hn
    simp only [exec_internal]
    rw [if_pos hn]
  · intro vm internal_id n hid
    match internal_id, hid with
    | (k + 2), _ => rfl

/-- Witness: `exec_internal_spec` dividing 10 by 2 on the concrete
state `vmW_div`. -/
theorem exec_internal_spec_witness :
    vmW_div.call_stack = (⟨2, ⟨0, 0⟩, 0, 0⟩ : VMStackFrame) :: [] ∧
    258 ≤ vmW_div.ram SP ∧ vmW_div.ram (vmW_div.ram SP - 1).toNat ≠ 0 ∧
    (∃ vm', vmW_div.exec_internal 0 2 = .ok vm' ∧
      vm'.ram SP = vmW_div.ram SP - 1 ∧
      vm'.ram (vmW_div.ram SP - 2).toNat =
        Int.tdiv (vmW_div.ram (vmW_div.ram SP - 2).toNat)
          (vmW_div.ram (vmW_div.ram SP - 1).toNat)) :=
  ⟨rfl, by decide, by decide,
    exec_internal_spec.1 vmW_div ⟨2, ⟨0, 0⟩, 0, 0⟩ [] rfl (by decide) (by decide)
      (by decide) (by decide) (by decide)⟩

/-- Witness: `exec_return_spec` applied to the concrete two-frame state
`vmW_ret`. -/
theorem exec_return_spec_witness :
    vmW_ret.call_stack = (⟨1, ⟨0, 0⟩, 3, 0⟩ : VMStackFrame) :: frameW :: [] ∧
    0 < (1 : Nat) ∧ 256 < vmW_ret.ram SP ∧ vmW_ret.ram SP ≤ RAM_SIZE ∧
    261 ≤ vmW_ret.ram LCL ∧ vmW_ret.ram LCL ≤ RAM_SIZE ∧
    256 ≤ vmW_ret.ram ARG ∧ vmW_ret.ram ARG < RAM_SIZE ∧
    (∃ vm', vmW_ret.exec_return = .ok vm' ∧
      vm'.ram SP = vmW_ret.ram ARG + 1 ∧
      vm'.ram (vmW_ret.ram ARG).toNat = vmW_ret.ram (vmW_ret.ram SP - 1).toNat ∧
      vm'.ram THAT = vmW_ret.ram (vmW_ret.ram LCL - 1).toNat ∧
      vm'.ram THIS = vmW_ret.ram (vmW_ret.ram LCL - 2).toNat ∧
      vm'.ram ARG = vmW_ret.ram (vmW_ret.ram LCL - 3).toNat ∧
      vm'.ram LCL = vmW_ret.ram (vmW_ret.ram LCL - 4).toNat ∧
      vm'.call_stack = { frameW with index := frameW.index + 1 } :: [] ∧
      vm'.program = vmW_ret.program ∧ vm'.step_counter = vmW_ret.step_counter) :=
  ⟨rfl, by decide, by decide, by decide, by decide, by decide, by decide, by decide,
    exec_return_spec vmW_ret ⟨1, ⟨0, 0⟩, 3, 0⟩ frameW [] rfl (by decide) (by decide)
      (by decide) (by decide) (by decide) (by decide) (by decide)⟩

/-- Witness: `exec_call_spec` applied to the concrete state `vmW`
(SP = 260, caller at command index 7) calling function (0,1) with one
argument. -/
theorem exec_call_spec_witness :
    vmW.call_stack = frameW :: [] ∧ 256 ≤ vmW.ram SP ∧ vmW.ram SP + 5 ≤ RAM_SIZE ∧
    (frameW.index : Int) + 1 < 2147483648 ∧ ((1 : Nat) : Int) ≤ vmW.ram SP ∧
    (∃ vm', vmW.exec_call ⟨0, 1⟩ 1 = .ok vm' ∧
      vm'.ram (vmW.ram SP).toNat = (frameW.index : Int) + 1 ∧
      vm'.ram ((vmW.ram SP).toNat + 1) = vmW.ram LCL ∧
      vm'.ram ((vmW.ram SP).toNat + 2) = vmW.ram ARG ∧
      vm'.ram ((vmW.ram SP).toNat + 3) = vmW.ram THIS ∧
      vm'.ram ((vmW.ram SP).toNat + 4) = vmW.ram THAT ∧
      vm'.ram SP = vmW.ram SP + 5 ∧
      vm'.ram ARG = vm'.ram SP - 5 - ((1 : Nat) : Int) ∧
      vm'.ram LCL = vm'.ram SP ∧
      vm'.call_stack =
        VMStackFrame.new ⟨0, 1⟩ 1 ::
          { frameW with stack_size := frameW.stack_size + 5 } :: [] ∧
      vm'.program = vmW.program ∧ vm'.step_counter = vmW.step_counter ∧
      (∀ a : Nat, 4 < a → a < (vmW.ram SP).toNat → vm'.ram a = vmW.ram a)) :=
  ⟨rfl, by decide, by decide, by decide, by decide,
    exec_call_spec vmW frameW [] ⟨0, 1⟩ 1 rfl (by decide) (by decide) (by decide) (by decide)⟩

end VMEmulator

end HackVM
